import Mathlib

/-!
Shallow embedding of the inbound-webhook pipeline of the whats-conversa
backend, together with proofs about the claims of its specification.

The embedded code comes from:
* `webhook.controller` (source file `src/unnamed/part_007`): `getMessageContent`,
  `getLastMessagePreview`, `handleMessagesUpsert`, `handleMessagesUpdate`,
  `handleConnectionUpdate`, `handleQrCodeUpdate`, `handleWebhook`;
* `message.controller.ts` (`src/backend/src/controllers/message.controller.ts`):
  `markAsRead`;
* the Prisma migration (`src/unnamed/part_006`): the enums, column defaults and
  unique indexes (`contacts_instanceId_remoteJid_key`,
  `conversations_instanceId_contactId_key`, `messages_instanceId_messageId_key`);
* `websocket/socket.ts`: `getIO`, which throws when the Socket.IO server has not
  been set up yet.

Modelling conventions:
* Database rows are records in lists; generated primary keys (Prisma cuids) are
  modelled as `Nat` drawn from a `nextId` counter.
* Timestamps are `Nat` milliseconds; `new Date()` reads the ambient clock `DB.now`.
* JavaScript truthiness on optional strings (`undefined` and `""` are falsy) is
  `strTruthy`; on optional numbers (`undefined` and `0` are falsy) it is `numTruthy`.
* `prisma.<table>.create` enforces the table's unique index and throws a
  uniqueness violation otherwise; `prisma.message.findUnique` with an `undefined`
  value inside its unique `where` key throws a validation error.  Thrown errors
  are values of `HandlerError`; every handler returns a `HandlerResult` whose
  `error` component records an uncaught exception (the source has no try/catch
  inside the handlers, only the one in `handleWebhook`).
* Socket.IO emissions are recorded as a list of `SocketEvent` values identified
  by topic and key payload fields.
-/

namespace WhatsConversa

/-- Enum `ConversationStatus` of the Prisma schema. -/
inductive ConversationStatus where
  | OPEN
  | PENDING
  | RESOLVED
  | SPAM
deriving DecidableEq, Repr

/-- Enum `MessageStatus` of the Prisma schema. -/
inductive MessageStatus where
  | PENDING
  | SENT
  | DELIVERED
  | READ
  | FAILED
deriving DecidableEq, Repr

/-- Enum `MessageType` of the Prisma schema. -/
inductive MessageType where
  | TEXT
  | IMAGE
  | VIDEO
  | AUDIO
  | DOCUMENT
  | STICKER
  | LOCATION
  | CONTACT
  | REACTION
deriving DecidableEq, Repr

/-- Enum `InstanceStatus` of the Prisma schema. -/
inductive InstanceStatus where
  | DISCONNECTED
  | CONNECTING
  | CONNECTED
  | QRCODE
deriving DecidableEq, Repr

/-- Row of table `instances`. -/
structure Instance where
  id : Nat
  name : String
  apiKey : Option String
  qrCode : Option String
  status : InstanceStatus
deriving DecidableEq, Repr

/-- Row of table `contacts` (fields used by the pipeline). -/
structure Contact where
  id : Nat
  instanceId : Nat
  remoteJid : String
  pushName : Option String
  phoneNumber : Option String
  isGroup : Bool
deriving DecidableEq, Repr

/-- Row of table `conversations` (fields used by the pipeline). -/
structure Conversation where
  id : Nat
  instanceId : Nat
  contactId : Nat
  status : ConversationStatus
  unreadCount : Nat
  lastMessage : Option String
  lastMessageAt : Option Nat
deriving DecidableEq, Repr

/-- Row of table `messages` (fields used by the pipeline). -/
structure Message where
  id : Nat
  messageId : String
  content : Option String
  type : MessageType
  status : MessageStatus
  isFromMe : Bool
  timestamp : Nat
  mediaUrl : Option String
  mediaMimeType : Option String
  mediaFileName : Option String
  quotedMessageId : Option String
  instanceId : Nat
  contactId : Nat
  conversationId : Nat
deriving DecidableEq, Repr

/-- The relational store plus ambient runtime state: the clock used by
`new Date()` and whether `initSocket` has run (`getIO` throws otherwise). -/
structure DB where
  instances : List Instance
  contacts : List Contact
  conversations : List Conversation
  messages : List Message
  nextId : Nat
  now : Nat
  ioReady : Bool
deriving DecidableEq, Repr

/-- JavaScript truthiness of an optional string: `undefined` and `""` are falsy. -/
def strTruthy : Option String → Bool
  | some s => s ≠ ""
  | none => false

/-- JavaScript `a || b` on an optional string `a` and a string default `b`. -/
def jsOrStr (a : Option String) (b : String) : String :=
  match a with
  | some s => if s = "" then b else s
  | none => b

/-- JavaScript `a || b` on two optional strings. -/
def jsOrOpt (a b : Option String) : Option String :=
  if strTruthy a then a else b

/-- JavaScript `a || null` on an optional string: a falsy value becomes `null`. -/
def jsOrNull (a : Option String) : Option String :=
  match a with
  | some s => if s = "" then none else some s
  | none => none

/-- Replacement of the first occurrence of `pat` in a character list. -/
def replaceFirstChars (pat repl : List Char) : List Char → List Char
  | [] => []
  | c :: cs =>
    if List.isPrefixOf pat (c :: cs) then repl ++ (c :: cs).drop pat.length
    else c :: replaceFirstChars pat repl cs

/-- JavaScript `String.prototype.replace` with a plain-string pattern: only the
first occurrence is replaced. -/
def jsReplaceFirst (s pat repl : String) : String :=
  String.mk (replaceFirstChars pat.data repl.data s.data)

/-- JavaScript `String.prototype.endsWith`. -/
def jsEndsWith (s suffixStr : String) : Bool :=
  List.isPrefixOf suffixStr.data.reverse s.data.reverse

/-- Backslashes and double quotes escaped as `JSON.stringify` does. -/
def jsonEscape (s : String) : String :=
  String.join (s.toList.map (fun c =>
    if c = '\\' then "\\\\" else if c = '"' then "\\\"" else String.singleton c))

/-- A JSON string literal. -/
def jsonStr (s : String) : String :=
  "\"" ++ jsonEscape s ++ "\""

/-- A JSON object from rendered key/value pairs (keys with `undefined` values are
already dropped by the caller, as `JSON.stringify` drops them). -/
def jsonObj (fields : List (String × String)) : String :=
  "\x7b" ++ String.intercalate "," (fields.map (fun p => jsonStr p.1 ++ ":" ++ p.2)) ++ "\x7d"

/-- An optional field of a stringified object: present when defined, dropped
when `undefined`. -/
def jsonOptField (key : String) (v : Option String) : List (String × String) :=
  match v with
  | some s => [(key, jsonStr s)]
  | none => []

/-- Vendor payload fragment `imageMessage`. -/
structure ImageMessage where
  url : Option String
  mimetype : Option String
  caption : Option String
deriving DecidableEq, Repr

/-- Vendor payload fragment `videoMessage`. -/
structure VideoMessage where
  url : Option String
  mimetype : Option String
  caption : Option String
deriving DecidableEq, Repr

/-- Vendor payload fragment `audioMessage`. -/
structure AudioMessage where
  url : Option String
  mimetype : Option String
deriving DecidableEq, Repr

/-- Vendor payload fragment `documentMessage`. -/
structure DocumentMessage where
  url : Option String
  mimetype : Option String
  fileName : Option String
  title : Option String
deriving DecidableEq, Repr

/-- Vendor payload fragment `stickerMessage`. -/
structure StickerMessage where
  url : Option String
  mimetype : Option String
deriving DecidableEq, Repr

/-- Vendor payload fragment `locationMessage`; the JavaScript number coordinates
are modelled as integers. -/
structure LocationMessage where
  degreesLatitude : Int
  degreesLongitude : Int
  name : Option String
  address : Option String
deriving DecidableEq, Repr

/-- Vendor payload fragment `contactMessage`. -/
structure ContactMessage where
  displayName : Option String
  vcard : Option String
deriving DecidableEq, Repr

/-- Vendor payload fragment `reactionMessage`. -/
structure ReactionMessage where
  text : Option String
deriving DecidableEq, Repr

/-- Vendor payload fragment `contextInfo` of an extended text message. -/
structure ContextInfo where
  stanzaId : Option String
deriving DecidableEq, Repr

/-- Vendor payload fragment `extendedTextMessage`. -/
structure ExtendedTextMessage where
  text : Option String
  contextInfo : Option ContextInfo
deriving DecidableEq, Repr

/-- The `message` bag of optional variant sub-objects of an upsert item. -/
structure MessageContent where
  conversation : Option String
  extendedTextMessage : Option ExtendedTextMessage
  imageMessage : Option ImageMessage
  videoMessage : Option VideoMessage
  audioMessage : Option AudioMessage
  documentMessage : Option DocumentMessage
  stickerMessage : Option StickerMessage
  locationMessage : Option LocationMessage
  contactMessage : Option ContactMessage
  reactionMessage : Option ReactionMessage
deriving DecidableEq, Repr

/-- Vendor message key; the webhook body is external JSON, so every field may be
absent at runtime (`fromMe` is read through JavaScript truthiness, so a missing
value behaves as `false`). -/
structure MessageKey where
  remoteJid : Option String
  fromMe : Bool
  id : Option String
deriving DecidableEq, Repr

/-- One item of a MESSAGES_UPSERT payload (`MessageUpsertData`). -/
structure MessageUpsertData where
  key : Option MessageKey
  pushName : Option String
  message : Option MessageContent
  messageTimestamp : Option Nat
deriving DecidableEq, Repr

/-- Result of `getMessageContent`: canonical type, content and media reference. -/
structure NormalizedContent where
  content : Option String
  type : MessageType
  mediaUrl : Option String
  mediaMimeType : Option String
  mediaFileName : Option String
deriving DecidableEq, Repr

/-- The message normalizer `getMessageContent` (part_007 lines 12-110): the
variant checks run in source order, so the first present variant wins. -/
def getMessageContent (messageData : MessageUpsertData) : NormalizedContent :=
  match messageData.message with
  | none => ⟨none, .TEXT, none, none, none⟩
  | some message =>
    if strTruthy message.conversation then
      ⟨message.conversation, .TEXT, none, none, none⟩
    else if strTruthy (message.extendedTextMessage.bind ExtendedTextMessage.text) then
      ⟨message.extendedTextMessage.bind ExtendedTextMessage.text, .TEXT, none, none, none⟩
    else
      match message.imageMessage, message.videoMessage, message.audioMessage,
            message.documentMessage, message.stickerMessage, message.locationMessage,
            message.contactMessage, message.reactionMessage with
      | some im, _, _, _, _, _, _, _ =>
        ⟨jsOrNull im.caption, .IMAGE, im.url, im.mimetype, none⟩
      | none, some vm, _, _, _, _, _, _ =>
        ⟨jsOrNull vm.caption, .VIDEO, vm.url, vm.mimetype, none⟩
      | none, none, some am, _, _, _, _, _ =>
        ⟨none, MessageType.AUDIO, am.url, am.mimetype, none⟩
      | none, none, none, some dm, _, _, _, _ =>
        ⟨none, .DOCUMENT, dm.url, dm.mimetype, jsOrOpt dm.fileName dm.title⟩
      | none, none, none, none, some sm, _, _, _ =>
        ⟨none, .STICKER, sm.url, sm.mimetype, none⟩
      | none, none, none, none, none, some loc, _, _ =>
        ⟨some (jsonObj ([("latitude", toString loc.degreesLatitude),
                         ("longitude", toString loc.degreesLongitude)]
                 ++ jsonOptField "name" loc.name
                 ++ jsonOptField "address" loc.address)),
         .LOCATION, none, none, none⟩
      | none, none, none, none, none, none, some cm, _ =>
        ⟨some (jsonObj (jsonOptField "displayName" cm.displayName
                 ++ jsonOptField "vcard" cm.vcard)),
         .CONTACT, none, none, none⟩
      | none, none, none, none, none, none, none, some rm =>
        ⟨rm.text, .REACTION, none, none, none⟩
      | none, none, none, none, none, none, none, none =>
        ⟨none, .TEXT, none, none, none⟩

/-- The conversation preview builder `getLastMessagePreview` (part_007 lines
112-135). -/
def getLastMessagePreview (type : MessageType) (content : Option String) : String :=
  match type with
  | .TEXT => jsOrStr content ""
  | .IMAGE => if strTruthy content then "[imagem] " ++ jsOrStr content "" else "[imagem]"
  | .VIDEO => if strTruthy content then "[vídeo] " ++ jsOrStr content "" else "[vídeo]"
  | MessageType.AUDIO => "[áudio]"
  | .DOCUMENT => "[documento]"
  | .STICKER => "[figurinha]"
  | .LOCATION => "[localização]"
  | .CONTACT => "[contato]"
  | .REACTION => jsOrStr content ""

/-- An exception escaping a handler (the handlers have no internal try/catch). -/
inductive HandlerError where
  | socketNotReady
  | prismaValidation (msg : String)
  | uniqueViolation (constraint : String)
deriving DecidableEq, Repr

/-- A Socket.IO emission, identified by topic, event name and key payload
fields: `message:new` to the conversation room, `message:new` and
`conversation:update` on the global channel, `message:update` to the
conversation room, `instance:status` and `instance:qrcode` globally. -/
inductive SocketEvent where
  | messageNewRoom (conversationId : Nat) (messageDbId : Nat)
  | messageNewGlobal (messageDbId : Nat) (conversationId : Nat)
  | conversationUpdate (conversationId : Nat)
  | messageUpdateRoom (conversationId : Nat) (messageDbId : Nat) (status : MessageStatus)
  | instanceStatus (instanceId : Nat) (status : InstanceStatus)
  | instanceQrcode (instanceId : Nat) (qrcode : String)
deriving DecidableEq, Repr

/-- Outcome of running a webhook event handler: the store as left behind, the
emissions that happened, and the exception that escaped, if any (effects made
before the throw persist, as Prisma calls are not grouped in a transaction). -/
structure HandlerResult where
  db : DB
  events : List SocketEvent
  error : Option HandlerError
deriving DecidableEq, Repr

/-- `prisma.instance.findUnique({ where: { name } })`. -/
def findInstanceByName (db : DB) (name : String) : Option Instance :=
  db.instances.find? (fun i => i.name == name)

/-- `prisma.instance.findUnique({ where: { id } })`. -/
def findInstanceById (db : DB) (id : Nat) : Option Instance :=
  db.instances.find? (fun i => i.id == id)

/-- `prisma.contact.findUnique({ where: { instanceId_remoteJid } })`. -/
def findContactByJid (db : DB) (instanceId : Nat) (remoteJid : String) : Option Contact :=
  db.contacts.find? (fun c => c.instanceId == instanceId && c.remoteJid == remoteJid)

/-- `prisma.contact.findUnique({ where: { id } })`. -/
def findContactById (db : DB) (id : Nat) : Option Contact :=
  db.contacts.find? (fun c => c.id == id)

/-- `prisma.conversation.findUnique({ where: { instanceId_contactId } })`. -/
def findConversationByPair (db : DB) (instanceId contactId : Nat) : Option Conversation :=
  db.conversations.find? (fun c => c.instanceId == instanceId && c.contactId == contactId)

/-- `prisma.conversation.findUnique({ where: { id } })`. -/
def findConversationById (db : DB) (id : Nat) : Option Conversation :=
  db.conversations.find? (fun c => c.id == id)

/-- `prisma.message.findUnique({ where: { instanceId_messageId } })`. -/
def findMessageByExternalId (db : DB) (instanceId : Nat) (messageId : String) : Option Message :=
  db.messages.find? (fun m => m.instanceId == instanceId && m.messageId == messageId)

/-- `prisma.contact.create`: the unique index `contacts_instanceId_remoteJid_key`
rejects a duplicate pair with a uniqueness violation. -/
def createContact (db : DB) (c : Contact) : Except HandlerError DB :=
  if (findContactByJid db c.instanceId c.remoteJid).isSome then
    .error (.uniqueViolation "contacts_instanceId_remoteJid_key")
  else
    .ok { db with contacts := db.contacts ++ [c], nextId := db.nextId + 1 }

/-- `prisma.conversation.create`: the unique index
`conversations_instanceId_contactId_key` rejects a duplicate pair. -/
def createConversation (db : DB) (c : Conversation) : Except HandlerError DB :=
  if (findConversationByPair db c.instanceId c.contactId).isSome then
    .error (.uniqueViolation "conversations_instanceId_contactId_key")
  else
    .ok { db with conversations := db.conversations ++ [c], nextId := db.nextId + 1 }

/-- `prisma.message.create`: the unique index `messages_instanceId_messageId_key`
rejects a duplicate pair. -/
def createMessage (db : DB) (m : Message) : Except HandlerError DB :=
  if (findMessageByExternalId db m.instanceId m.messageId).isSome then
    .error (.uniqueViolation "messages_instanceId_messageId_key")
  else
    .ok { db with messages := db.messages ++ [m], nextId := db.nextId + 1 }

/-- `prisma.contact.update({ where: { id } })`. -/
def updateContactRow (db : DB) (id : Nat) (f : Contact → Contact) : DB :=
  { db with contacts := db.contacts.map (fun c => if c.id = id then f c else c) }

/-- `prisma.conversation.update({ where: { id } })`. -/
def updateConversationRow (db : DB) (id : Nat) (f : Conversation → Conversation) : DB :=
  { db with conversations := db.conversations.map (fun c => if c.id = id then f c else c) }

/-- `prisma.message.update({ where: { id } })`. -/
def updateMessageRow (db : DB) (id : Nat) (f : Message → Message) : DB :=
  { db with messages := db.messages.map (fun m => if m.id = id then f m else m) }

/-- `prisma.instance.update({ where: { id } })`. -/
def updateInstanceRow (db : DB) (id : Nat) (f : Instance → Instance) : DB :=
  { db with instances := db.instances.map (fun i => if i.id = id then f i else i) }

/-- The timestamp of part_007 lines 226-228: the vendor epoch-seconds value
scaled to milliseconds when truthy, otherwise the current time.  Note that
`prisma.message.findUnique` throws a validation error when `key.id` is
`undefined` (the guard at line 142 checks only `key` and `key.remoteJid`);
the existence check at line 205 otherwise skips an already-stored item. -/
def upsertTimestamp (db : DB) (d : MessageUpsertData) : Nat :=
  match d.messageTimestamp with
  | some ts => if ts ≠ 0 then ts * 1000 else db.now
  | none => db.now

/-- The quoted-message external id captured at part_007 lines 220-223. -/
def upsertQuotedId (d : MessageUpsertData) : Option String :=
  jsOrNull (d.message.bind (fun m => m.extendedTextMessage.bind
    (fun e => e.contextInfo.bind ContextInfo.stanzaId)))

/-- The message row built by `prisma.message.create` at part_007 lines 230-251. -/
def builtMessage (db : DB) (d : MessageUpsertData) (key : MessageKey) (keyId : String)
    (inst : Instance) (contact : Contact) (conversation : Conversation) : Message :=
  let nc := getMessageContent d
  { id := db.nextId, messageId := keyId, content := nc.content, type := nc.type,
    status := if key.fromMe then .SENT else .DELIVERED, isFromMe := key.fromMe,
    timestamp := upsertTimestamp db d, mediaUrl := nc.mediaUrl,
    mediaMimeType := nc.mediaMimeType, mediaFileName := nc.mediaFileName,
    quotedMessageId := upsertQuotedId d,
    instanceId := inst.id, contactId := contact.id, conversationId := conversation.id }

/-- The conversation aggregate update of part_007 lines 253-282 applied to the
stored row: preview and timestamp always; when the message is not
agent-originated the unread counter is incremented and, if the fetched status
was RESOLVED, the status flips to OPEN. -/
def conversationAggregateUpdate (key : MessageKey) (fetchedStatus : ConversationStatus)
    (nc : NormalizedContent) (timestamp : Nat) (c : Conversation) : Conversation :=
  let c1 := { c with lastMessage := some (getLastMessagePreview nc.type nc.content),
                     lastMessageAt := some timestamp }
  if key.fromMe then c1
  else { c1 with unreadCount := c1.unreadCount + 1,
                 status := if fetchedStatus = .RESOLVED then .OPEN else c1.status }

/-- Message-existence check, message creation, conversation aggregate update and
fan-out: part_007 lines 204-293 (see the stage doc comments above each helper). -/
def upsertMessageStage (db : DB) (d : MessageUpsertData) (key : MessageKey)
    (inst : Instance) (contact : Contact) (conversation : Conversation) : HandlerResult :=
  match key.id with
  | none => ⟨db, [], some (.prismaValidation "message.findUnique: messageId is undefined")⟩
  | some keyId =>
    match findMessageByExternalId db inst.id keyId with
    | some _ => ⟨db, [], none⟩
    | none =>
      let message := builtMessage db d key keyId inst contact conversation
      match createMessage db message with
      | .error e => ⟨db, [], some e⟩
      | .ok db1 =>
        let db2 := updateConversationRow db1 conversation.id
          (conversationAggregateUpdate key conversation.status (getMessageContent d)
            (upsertTimestamp db d))
        ⟨db2, [.messageNewRoom conversation.id message.id,
               .messageNewGlobal message.id conversation.id,
               .conversationUpdate conversation.id], none⟩

/-- Conversation find-or-create: part_007 lines 184-202.  A new conversation is
created with status OPEN; `unreadCount`, `lastMessage` and `lastMessageAt` take
the schema defaults 0 / null / null. -/
def upsertConversationStage (db : DB) (d : MessageUpsertData) (key : MessageKey)
    (inst : Instance) (contact : Contact) : HandlerResult :=
  match findConversationByPair db inst.id contact.id with
  | none =>
    let conversation : Conversation :=
      { id := db.nextId, instanceId := inst.id, contactId := contact.id,
        status := .OPEN, unreadCount := 0, lastMessage := none, lastMessageAt := none }
    match createConversation db conversation with
    | .error e => ⟨db, [], some e⟩
    | .ok db1 => upsertMessageStage db1 d key inst contact conversation
  | some conversation => upsertMessageStage db d key inst contact conversation

/-- The body of the `for` loop of `handleMessagesUpsert` for one upsert item:
part_007 lines 140-294 (guards, instance resolution and the contact
find-or-create/backfill, then the later stages). -/
def processUpsertItem (db : DB) (instanceName : String) (d : MessageUpsertData) : HandlerResult :=
  match d.key with
  | none => ⟨db, [], none⟩
  | some key =>
    match key.remoteJid with
    | none => ⟨db, [], none⟩
    | some remoteJid =>
      if remoteJid = "" then ⟨db, [], none⟩
      else if remoteJid = "status@broadcast" then ⟨db, [], none⟩
      else
        match findInstanceByName db instanceName with
        | none => ⟨db, [], none⟩
        | some inst =>
          let isGroup := jsEndsWith remoteJid "@g.us"
          match findContactByJid db inst.id remoteJid with
          | none =>
            let phoneNumber :=
              jsReplaceFirst (jsReplaceFirst remoteJid "@s.whatsapp.net" "") "@g.us" ""
            let contact : Contact :=
              { id := db.nextId, instanceId := inst.id, remoteJid := remoteJid,
                pushName := some (jsOrStr d.pushName phoneNumber),
                phoneNumber := some phoneNumber, isGroup := isGroup }
            match createContact db contact with
            | .error e => ⟨db, [], some e⟩
            | .ok db1 => upsertConversationStage db1 d key inst contact
          | some contact =>
            if strTruthy d.pushName && !(strTruthy contact.pushName) then
              upsertConversationStage
                (updateContactRow db contact.id (fun c => { c with pushName := d.pushName }))
                d key inst { contact with pushName := d.pushName }
            else
              upsertConversationStage db d key inst contact

/-- The `for` loop of `handleMessagesUpsert`: items run in order and there is no
per-item try/catch, so an exception thrown while processing one item aborts the
remaining items (effects and emissions already made persist). -/
def processUpsertItems (db : DB) (instanceName : String) :
    List MessageUpsertData → HandlerResult
  | [] => ⟨db, [], none⟩
  | d :: rest =>
    let r := processUpsertItem db instanceName d
    match r.error with
    | some e => ⟨r.db, r.events, some e⟩
    | none =>
      let r2 := processUpsertItems r.db instanceName rest
      ⟨r2.db, r.events ++ r2.events, r2.error⟩

/-- `handleMessagesUpsert` (part_007 lines 137-295): `getIO()` runs before the
loop and throws when the Socket.IO server is not set up. -/
def handleMessagesUpsert (db : DB) (instanceName : String)
    (data : List MessageUpsertData) : HandlerResult :=
  if db.ioReady then processUpsertItems db instanceName data
  else ⟨db, [], some .socketNotReady⟩

/-- Key object of a MESSAGES_UPDATE item (external JSON, so all fields may be
absent). -/
structure MessageUpdateKey where
  id : Option String
  remoteJid : Option String
  fromMe : Option Bool
deriving DecidableEq, Repr

/-- The `update` object of a MESSAGES_UPDATE item: the vendor numeric status. -/
structure MessageUpdateBody where
  status : Option Nat
deriving DecidableEq, Repr

/-- One item of a MESSAGES_UPDATE payload (typed `any` in the source). -/
structure MessageUpdateItem where
  key : Option MessageUpdateKey
  update : Option MessageUpdateBody
deriving DecidableEq, Repr

/-- The body of the `for` loop of `handleMessagesUpdate` for one item: part_007
lines 362-410.  The guard `!update.key?.id` skips items whose key id is absent
or empty; an unknown instance or target message is skipped silently; the vendor
code is mapped by the `switch` (2, 3, 4; a falsy or unlisted code leaves the
status as it is); the message row is written and `message:update` emitted only
when the mapped status differs from the current one.  `getIO()` is called after
the row update, inside the `if`, and throws when Socket.IO is not set up. -/
def processUpdateItem (db : DB) (instanceName : String) (u : MessageUpdateItem) : HandlerResult :=
  match u.key with
  | none => ⟨db, [], none⟩
  | some k =>
    match k.id with
    | none => ⟨db, [], none⟩
    | some kid =>
      if kid = "" then ⟨db, [], none⟩
      else
        match findInstanceByName db instanceName with
        | none => ⟨db, [], none⟩
        | some inst =>
          match findMessageByExternalId db inst.id kid with
          | none => ⟨db, [], none⟩
          | some message =>
            let newStatus :=
              match u.update with
              | none => message.status
              | some upd =>
                match upd.status with
                | none => message.status
                | some code =>
                  if code = 0 then message.status
                  else if code = 2 then .SENT
                  else if code = 3 then .DELIVERED
                  else if code = 4 then .READ
                  else message.status
            if newStatus = message.status then ⟨db, [], none⟩
            else
              let db1 := updateMessageRow db message.id (fun m => { m with status := newStatus })
              if db.ioReady then
                ⟨db1, [.messageUpdateRoom message.conversationId message.id newStatus], none⟩
              else ⟨db1, [], some .socketNotReady⟩

/-- The `for` loop of `handleMessagesUpdate` (no per-item try/catch). -/
def processUpdateItems (db : DB) (instanceName : String) :
    List MessageUpdateItem → HandlerResult
  | [] => ⟨db, [], none⟩
  | u :: rest =>
    let r := processUpdateItem db instanceName u
    match r.error with
    | some e => ⟨r.db, r.events, some e⟩
    | none =>
      let r2 := processUpdateItems r.db instanceName rest
      ⟨r2.db, r.events ++ r2.events, r2.error⟩

/-- `handleMessagesUpdate` (part_007 lines 361-411). -/
def handleMessagesUpdate (db : DB) (instanceName : String)
    (data : List MessageUpdateItem) : HandlerResult :=
  processUpdateItems db instanceName data

/-- CONNECTION_UPDATE payload. -/
structure ConnectionUpdateData where
  state : Option String
deriving DecidableEq, Repr

/-- The `qrcode` object of a QRCODE_UPDATED payload. -/
structure QrCodePayload where
  base64 : Option String
deriving DecidableEq, Repr

/-- QRCODE_UPDATED payload. -/
structure QrCodeUpdateData where
  qrcode : Option QrCodePayload
deriving DecidableEq, Repr

/-- `handleConnectionUpdate` (part_007 lines 297-333): `getIO()` runs first;
the vendor tri-state maps to the instance status (default DISCONNECTED); on
CONNECTED the stored QR code is cleared; `instance:status` is emitted. -/
def handleConnectionUpdate (db : DB) (instanceName : String)
    (data : ConnectionUpdateData) : HandlerResult :=
  if db.ioReady then
    match findInstanceByName db instanceName with
    | none => ⟨db, [], none⟩
    | some inst =>
      let status : InstanceStatus :=
        match data.state with
        | some "open" => .CONNECTED
        | some "connecting" => .CONNECTING
        | some "close" => .DISCONNECTED
        | _ => .DISCONNECTED
      let db1 := updateInstanceRow db inst.id (fun i =>
        { i with status := status,
                 qrCode := if status = .CONNECTED then none else inst.qrCode })
      ⟨db1, [.instanceStatus inst.id status], none⟩
  else ⟨db, [], some .socketNotReady⟩

/-- `handleQrCodeUpdate` (part_007 lines 335-359): `getIO()` runs first; when a
truthy base64 payload is present the instance stores it with status QRCODE and
`instance:qrcode` is emitted. -/
def handleQrCodeUpdate (db : DB) (instanceName : String)
    (data : QrCodeUpdateData) : HandlerResult :=
  if db.ioReady then
    match findInstanceByName db instanceName with
    | none => ⟨db, [], none⟩
    | some inst =>
      match data.qrcode with
      | none => ⟨db, [], none⟩
      | some qr =>
        match qr.base64 with
        | none => ⟨db, [], none⟩
        | some b64 =>
          if b64 = "" then ⟨db, [], none⟩
          else
            let db1 := updateInstanceRow db inst.id (fun i =>
              { i with qrCode := some b64, status := .QRCODE })
            ⟨db1, [.instanceQrcode inst.id b64], none⟩
  else ⟨db, [], some .socketNotReady⟩

/-- The `data` field of a webhook envelope, an untyped JSON value on the wire:
one of the shapes the vendor sends, possibly an array. -/
inductive WebhookData where
  | upsertOne (d : MessageUpsertData)
  | upsertMany (ds : List MessageUpsertData)
  | updateOne (u : MessageUpdateItem)
  | updateMany (us : List MessageUpdateItem)
  | connection (c : ConnectionUpdateData)
  | qrData (q : QrCodeUpdateData)
  | other
deriving DecidableEq, Repr

/-- The `Array.isArray(data) ? data : [data]` wrapping at the MESSAGES_UPSERT
dispatch plus the untyped cast: reading an upsert item out of a value of a
different shape yields `undefined` for the missing fields (an update-shaped
object does expose its `key`). -/
def WebhookData.asUpsertList : WebhookData → List MessageUpsertData
  | .upsertOne d => [d]
  | .upsertMany ds => ds
  | .updateOne u =>
    [{ key := u.key.map (fun k =>
         { remoteJid := k.remoteJid, fromMe := k.fromMe.getD false, id := k.id }),
       pushName := none, message := none, messageTimestamp := none }]
  | .updateMany us =>
    us.map (fun u =>
      { key := u.key.map (fun k =>
          { remoteJid := k.remoteJid, fromMe := k.fromMe.getD false, id := k.id }),
        pushName := none, message := none, messageTimestamp := none })
  | .connection _ => [{ key := none, pushName := none, message := none, messageTimestamp := none }]
  | .qrData _ => [{ key := none, pushName := none, message := none, messageTimestamp := none }]
  | .other => [{ key := none, pushName := none, message := none, messageTimestamp := none }]

/-- The `Array.isArray(data) ? data : [data]` wrapping at the MESSAGES_UPDATE
dispatch plus the untyped cast. -/
def WebhookData.asUpdateList : WebhookData → List MessageUpdateItem
  | .updateOne u => [u]
  | .updateMany us => us
  | .upsertOne d =>
    [{ key := d.key.map (fun k =>
         { id := k.id, remoteJid := k.remoteJid, fromMe := some k.fromMe }),
       update := none }]
  | .upsertMany ds =>
    ds.map (fun d =>
      { key := d.key.map (fun k =>
          { id := k.id, remoteJid := k.remoteJid, fromMe := some k.fromMe }),
        update := none })
  | .connection _ => [{ key := none, update := none }]
  | .qrData _ => [{ key := none, update := none }]
  | .other => [{ key := none, update := none }]

/-- The untyped cast at the CONNECTION_UPDATE dispatch. -/
def WebhookData.asConnectionData : WebhookData → ConnectionUpdateData
  | .connection c => c
  | _ => { state := none }

/-- The untyped cast at the QRCODE_UPDATED dispatch. -/
def WebhookData.asQrCodeData : WebhookData → QrCodeUpdateData
  | .qrData q => q
  | _ => { qrcode := none }

/-- An inbound webhook envelope `{event, instance, data}` (the source field
`instance` is a keyword here, so it is called `instanceName`). -/
structure WebhookPayload where
  event : String
  instanceName : String
  data : WebhookData
deriving DecidableEq, Repr

/-- The HTTP outcome of the webhook endpoint: the store and emissions left
behind, the response status, and whether the body was `{received: true}`
(`received = true`) or the catch-block error body (`received = false`). -/
structure WebhookOutcome where
  db : DB
  events : List SocketEvent
  status : Nat
  received : Bool
deriving DecidableEq, Repr

/-- The normalization `event.toUpperCase().replace(/\./g, '_')` of part_007
line 420, written per character: JavaScript uppercases every character (a dot
is unaffected by uppercasing) and the global regex then turns every dot into an
underscore. -/
def normalizeEventName (event : String) : String :=
  String.mk ((event.data.map Char.toUpper).map (fun c => if c = '.' then '_' else c))

/-- The event normalization and `switch` of `handleWebhook` (part_007 lines
413-451): the event name is uppercased with dots replaced by underscores and
the matching handler runs; CONTACTS_* and unknown events are no-ops.  Nothing
here catches exceptions: the `error` component carries what a handler threw up
to the endpoint's try/catch. -/
def webhookDispatch (db : DB) (p : WebhookPayload) : HandlerResult :=
  let normalizedEvent := normalizeEventName p.event
  if normalizedEvent = "MESSAGES_UPSERT" then
    handleMessagesUpsert db p.instanceName p.data.asUpsertList
  else if normalizedEvent = "MESSAGES_UPDATE" then
    handleMessagesUpdate db p.instanceName p.data.asUpdateList
  else if normalizedEvent = "CONNECTION_UPDATE" then
    handleConnectionUpdate db p.instanceName p.data.asConnectionData
  else if normalizedEvent = "QRCODE_UPDATED" ∨ normalizedEvent = "QRCODE_UPDATE" then
    handleQrCodeUpdate db p.instanceName p.data.asQrCodeData
  else ⟨db, [], none⟩

/-- The response wrapping of `handleWebhook`: 200 `{received: true}` when the
dispatched processing finished, 500 with an error body when an exception
reached the catch block. -/
def handleWebhook (db : DB) (p : WebhookPayload) : WebhookOutcome :=
  let r := webhookDispatch db p
  match r.error with
  | none => ⟨r.db, r.events, 200, true⟩
  | some _ => ⟨r.db, r.events, 500, false⟩

/-- The message set of `markAsRead`'s `include` and of its `updateMany`: the
conversation's inbound messages that are not READ
(`where: { isFromMe: false, status: { not: READ } }`). -/
def unreadInboundOf (db : DB) (conversationId : Nat) : List Message :=
  db.messages.filter (fun m =>
    m.conversationId == conversationId && !m.isFromMe && m.status ≠ .READ)

/-- The same messages ordered by `timestamp` descending (`orderBy: { timestamp:
desc }`; Prisma leaves the order among equal timestamps unspecified, modelled
here by a stable sort). -/
def sortedUnreadInbound (db : DB) (conversationId : Nat) : List Message :=
  (unreadInboundOf db conversationId).mergeSort (fun a b => b.timestamp ≤ a.timestamp)

/-- The `take: 10` slice actually loaded by the `include`. -/
def recentUnreadInbound (db : DB) (conversationId : Nat) : List Message :=
  (sortedUnreadInbound db conversationId).take 10

/-- Result of the `markAsRead` endpoint: the store left behind, the HTTP
status, and the external message ids forwarded to the gateway's read-receipt
call (`none` when the call was not made). -/
structure MarkAsReadResult where
  db : DB
  status : Nat
  forwarded : Option (List String)
deriving DecidableEq, Repr

/-- `markAsRead` (message.controller.ts lines 354-415).  The gateway
read-receipt call happens only when the instance is CONNECTED and there is at
least one recent unread inbound message and the contact exists; the call's own
try/catch swallows a gateway failure (`gatewayFails`), so the local writes - all
non-READ inbound messages of the conversation become READ and the unread counter
resets to 0 - run regardless. -/
def markAsRead (db : DB) (conversationId : Nat) (gatewayFails : Bool) : MarkAsReadResult :=
  match findConversationById db conversationId with
  | none => ⟨db, 404, none⟩
  | some conversation =>
    let msgs := recentUnreadInbound db conversationId
    let instanceConnected :=
      match findInstanceById db conversation.instanceId with
      | some i => i.status = .CONNECTED
      | none => false
    let forwarded :=
      if instanceConnected && msgs.length > 0 then
        match findContactById db conversation.contactId with
        | some _ =>
          -- evolutionApi.markMessageAsRead(...); a failure is caught and logged
          let _ := gatewayFails
          some (msgs.map Message.messageId)
        | none => none
      else none
    let db1 := { db with
      messages := db.messages.map (fun m =>
        if m.conversationId == conversationId && !m.isFromMe && m.status ≠ .READ
        then { m with status := .READ } else m) }
    let db2 := updateConversationRow db1 conversationId (fun c => { c with unreadCount := 0 })
    ⟨db2, 200, forwarded⟩

/-- Whether an emission is a `message:new` on a conversation room topic. -/
def SocketEvent.isMessageNewRoom : SocketEvent → Bool
  | .messageNewRoom _ _ => true
  | _ => false

/-- Whether an emission is a `message:new` on the global channel. -/
def SocketEvent.isMessageNewGlobal : SocketEvent → Bool
  | .messageNewGlobal _ _ => true
  | _ => false

/-- Modelled from the spec for comparison with the `switch` of
`handleMessagesUpdate`: the fixed vendor status table 2→SENT, 3→DELIVERED,
4→READ, any other code leaving the current status unchanged. -/
def specStatusTable (code : Nat) (current : MessageStatus) : MessageStatus :=
  if code = 2 then .SENT
  else if code = 3 then .DELIVERED
  else if code = 4 then .READ
  else current

/-- At most one conversation row per (instanceId, contactId) pair. -/
def ConversationSingleton (db : DB) : Prop :=
  ∀ iid cid : Nat,
    db.conversations.countP (fun c => c.instanceId == iid && c.contactId == cid) ≤ 1

/-- An upsert item that is an inbound (non-agent) message for the given jid
with the given external message id. -/
def InboundItemFor (jid kid : String) (d : MessageUpsertData) : Prop :=
  ∃ key, d.key = some key ∧ key.remoteJid = some jid ∧ key.fromMe = false ∧ key.id = some kid

/-- Concrete jid used by the witness scenarios (the spec's own scenario). -/
def wJid : String := "5511999@s.whatsapp.net"

/-- Concrete instance row for the witness scenarios. -/
def wInstance : Instance := ⟨1, "shop1", none, none, .CONNECTED⟩

/-- Concrete contact row for the witness scenarios. -/
def wContact : Contact := ⟨2, 1, wJid, some "Ana", some "5511999", false⟩

/-- Concrete RESOLVED conversation with a nonzero unread counter. -/
def wConversationResolved : Conversation := ⟨5, 1, 2, .RESOLVED, 3, none, none⟩

/-- Concrete message key of a fresh inbound text message. -/
def wKey : MessageKey := ⟨some wJid, false, some "MSG1"⟩

/-- Concrete plain-text message body. -/
def wText : MessageContent := ⟨some "Oi", none, none, none, none, none, none, none, none, none⟩

/-- Concrete upsert item: the spec's scenario webhook. -/
def wItem : MessageUpsertData := ⟨some wKey, some "Ana", some wText, some 1000⟩

/-- A second fresh inbound item for the same contact (external id MSG2). -/
def wItem2 : MessageUpsertData :=
  ⟨some ⟨some wJid, false, some "MSG2"⟩, some "Ana", some wText, some 2000⟩

/-- Concrete agent-originated twin of `wItem`. -/
def wItemFromMe : MessageUpsertData :=
  ⟨some ⟨some wJid, true, some "MSG2"⟩, some "Ana", some wText, some 1000⟩

/-- An upsert item whose key lacks the external message id: the guard lets it
through and the idempotency lookup throws a Prisma validation error. -/
def wBadItem : MessageUpsertData :=
  ⟨some ⟨some "5511888@s.whatsapp.net", false, none⟩, none, none, none⟩

/-- Store holding just the connected instance. -/
def wDb0 : DB := ⟨[wInstance], [], [], [], 10, 777, true⟩

/-- Store holding the instance, the contact and the RESOLVED conversation. -/
def wDbConv : DB := ⟨[wInstance], [wContact], [wConversationResolved], [], 10, 777, true⟩

/-- A message of the witness conversation already at READ. -/
def wMessageRead : Message :=
  ⟨3, "MSG1", some "Oi", .TEXT, .READ, false, 5, none, none, none, none, 1, 2, 5⟩

/-- A message of the witness conversation at DELIVERED. -/
def wMessageDelivered : Message :=
  ⟨3, "MSG1", some "Oi", .TEXT, .DELIVERED, false, 5, none, none, none, none, 1, 2, 5⟩

/-- Store whose single message is already READ. -/
def wDbRead : DB := ⟨[wInstance], [wContact], [wConversationResolved], [wMessageRead], 10, 777, true⟩

/-- Store whose single message is at DELIVERED. -/
def wDbDelivered : DB :=
  ⟨[wInstance], [wContact], [wConversationResolved], [wMessageDelivered], 10, 777, true⟩

/-- A status-update item carrying vendor code 3 (DELIVERED) for MSG1. -/
def wUpd3 : MessageUpdateItem := ⟨some ⟨some "MSG1", none, none⟩, some ⟨some 3⟩⟩

/-- A status-update item carrying vendor code 4 (READ) for MSG1. -/
def wUpd4 : MessageUpdateItem := ⟨some ⟨some "MSG1", none, none⟩, some ⟨some 4⟩⟩

/-- A message body holding both a truthy plain-text field and an image field. -/
def wTextAndImage : MessageContent :=
  ⟨some "oi", none, some ⟨some "http://media", some "image/jpeg", some "legenda"⟩,
   none, none, none, none, none, none, none⟩

/-- An upsert payload whose message carries both text and image variants. -/
def wTextAndImageItem : MessageUpsertData := ⟨some wKey, none, some wTextAndImage, none⟩

/-- Twelve unread inbound messages of conversation 5, with increasing
timestamps. -/
def wManyMessages : List Message :=
  (List.range 12).map (fun i =>
    ⟨30 + i, "N" ++ toString i, none, .TEXT, .DELIVERED, false, 100 + i,
     none, none, none, none, 1, 2, 5⟩)

/-- Store with an OPEN conversation holding twelve unread inbound messages. -/
def wDbMany : DB :=
  ⟨[wInstance], [wContact], [⟨5, 1, 2, .OPEN, 12, none, none⟩], wManyMessages, 50, 777, true⟩

/-- `List.find?` commutes with mapping a function that does not change the
predicate. -/
theorem find?_map_pred_inv {α : Type} (p : α → Bool) (f : α → α)
    (hf : ∀ a, p (f a) = p a) : ∀ l : List α, (l.map f).find? p = (l.find? p).map f := by
  intro l
  induction l with
  | nil => rfl
  | cons a t ih =>
    by_cases h : p a = true
    · rw [List.map_cons, List.find?_cons_of_pos _ (by rw [hf]; exact h),
          List.find?_cons_of_pos _ h]
      rfl
    · rw [List.map_cons, List.find?_cons_of_neg _ (by rw [hf]; exact h),
          List.find?_cons_of_neg _ h, ih]

/-- `List.countP` is unchanged by mapping a function that does not change the
predicate. -/
theorem countP_map_pred_inv {α : Type} (p : α → Bool) (f : α → α)
    (hf : ∀ a, p (f a) = p a) (l : List α) : (l.map f).countP p = l.countP p := by
  rw [List.countP_map]
  exact List.countP_congr (fun a _ => by rw [Function.comp_apply, hf])

/-- A truthy `||` default stays truthy. -/
theorem strTruthy_jsOrStr_of_truthy (a : Option String) (b : String)
    (h : strTruthy a = true) : strTruthy (some (jsOrStr a b)) = true := by
  cases a with
  | none => simp [strTruthy] at h
  | some s =>
    simp only [strTruthy, decide_eq_true_eq] at h ⊢
    simp [jsOrStr, h]

/-- Characterization of the guard, instance-resolution and contact
find-or-create/backfill stage of `processUpsertItem` when the item passes the
guards and the instance resolves: processing continues with
`upsertConversationStage` on a store whose conversations, messages and
instances are untouched, the contact is findable, and a repeat of the same
item can no longer trigger a push-name backfill. -/
theorem processUpsertItem_contact_stage (db : DB) (instanceName : String)
    (d : MessageUpsertData) (key : MessageKey) (jid : String) (inst : Instance)
    (hkey : d.key = some key) (hjid : key.remoteJid = some jid)
    (hne : jid ≠ "") (hnb : jid ≠ "status@broadcast")
    (hinst : findInstanceByName db instanceName = some inst) :
    ∃ ct db1,
      processUpsertItem db instanceName d = upsertConversationStage db1 d key inst ct ∧
      db1.instances = db.instances ∧
      db1.conversations = db.conversations ∧
      db1.messages = db.messages ∧
      db1.now = db.now ∧ db1.ioReady = db.ioReady ∧
      ct.instanceId = inst.id ∧
      findContactByJid db1 inst.id jid = some ct ∧
      (strTruthy d.pushName && !(strTruthy ct.pushName)) = false ∧
      (findContactByJid db inst.id jid = none ∨
        ∃ c0, findContactByJid db inst.id jid = some c0 ∧ ct.id = c0.id) := by
  simp only [processUpsertItem, hkey, hjid, hinst, if_neg hne, if_neg hnb]
  cases hfc : findContactByJid db inst.id jid with
  | none =>
    have hfc' : List.find? (fun c => c.instanceId == inst.id && c.remoteJid == jid)
        db.contacts = none := hfc
    simp only [createContact, hfc, Option.isSome_none, Bool.false_eq_true, if_false]
    refine ⟨_, _, rfl, rfl, rfl, rfl, rfl, rfl, rfl, ?_, ?_, Or.inl trivial⟩
    · show findContactByJid
        { db with contacts := db.contacts ++ [_], nextId := db.nextId + 1 } inst.id jid = _
      rw [findContactByJid]
      show List.find? _ (db.contacts ++ [_]) = _
      rw [List.find?_append, hfc']
      simp [List.find?]
    · cases hp : strTruthy d.pushName with
      | false => simp
      | true => simp [strTruthy_jsOrStr_of_truthy _ _ hp]
  | some ct =>
    have hfc' : List.find? (fun c => c.instanceId == inst.id && c.remoteJid == jid)
        db.contacts = some ct := hfc
    have hpct := List.find?_some hfc'
    have hctiid : ct.instanceId = inst.id := by
      rcases Bool.and_eq_true_iff.mp hpct with ⟨h1, _⟩
      exact eq_of_beq h1
    by_cases hbf : (strTruthy d.pushName && !(strTruthy ct.pushName)) = true
    · simp only [hbf, if_true]
      have hpn : strTruthy d.pushName = true := (Bool.and_eq_true_iff.mp hbf).1
      refine ⟨_, _, rfl, rfl, rfl, rfl, rfl, rfl, hctiid, ?_, ?_, Or.inr ⟨ct, rfl, rfl⟩⟩
      · show findContactByJid (updateContactRow db ct.id _) inst.id jid = _
        rw [updateContactRow, findContactByJid]
        show (db.contacts.map _).find? _ = _
        rw [find?_map_pred_inv _ _ (fun a => by by_cases h : a.id = ct.id <;> simp [h]), hfc']
        simp
      · rw [hpn]
        simp [strTruthy]
    · simp only [if_neg hbf]
      exact ⟨ct, db, rfl, rfl, rfl, rfl, rfl, rfl, hctiid, hfc,
        Bool.eq_false_iff.mpr hbf, Or.inr ⟨ct, rfl, rfl⟩⟩

/-- The find of each table reads only that table. -/
theorem findInstanceByName_congr (db db1 : DB) (h : db1.instances = db.instances)
    (n : String) : findInstanceByName db1 n = findInstanceByName db n := by
  rw [findInstanceByName, findInstanceByName, h]

/-- Contact lookup reads only the contacts table. -/
theorem findContactByJid_congr (db db1 : DB) (h : db1.contacts = db.contacts)
    (i : Nat) (j : String) : findContactByJid db1 i j = findContactByJid db i j := by
  rw [findContactByJid, findContactByJid, h]

/-- Conversation-pair lookup reads only the conversations table. -/
theorem findConversationByPair_congr (db db1 : DB) (h : db1.conversations = db.conversations)
    (i c : Nat) : findConversationByPair db1 i c = findConversationByPair db i c := by
  rw [findConversationByPair, findConversationByPair, h]

/-- Message lookup reads only the messages table. -/
theorem findMessageByExternalId_congr (db db1 : DB) (h : db1.messages = db.messages)
    (i : Nat) (k : String) : findMessageByExternalId db1 i k = findMessageByExternalId db i k := by
  rw [findMessageByExternalId, findMessageByExternalId, h]

/-- Characterization of the conversation find-or-create stage: processing
continues with `upsertMessageStage` on a store whose other tables are
untouched; the conversation is findable by its pair and is either the
pre-existing row or a fresh row with status OPEN and a zero unread counter. -/
theorem upsertConversationStage_spec (db : DB) (d : MessageUpsertData) (key : MessageKey)
    (inst : Instance) (ct : Contact) :
    ∃ conv db2,
      upsertConversationStage db d key inst ct = upsertMessageStage db2 d key inst ct conv ∧
      db2.instances = db.instances ∧
      db2.contacts = db.contacts ∧
      db2.messages = db.messages ∧
      db2.now = db.now ∧ db2.ioReady = db.ioReady ∧
      conv.instanceId = inst.id ∧ conv.contactId = ct.id ∧
      findConversationByPair db2 inst.id ct.id = some conv ∧
      ((findConversationByPair db inst.id ct.id = some conv ∧
        db2.conversations = db.conversations) ∨
       (findConversationByPair db inst.id ct.id = none ∧ conv.status = .OPEN ∧
        conv.unreadCount = 0 ∧ db2.conversations = db.conversations ++ [conv])) := by
  simp only [upsertConversationStage]
  cases hfc : findConversationByPair db inst.id ct.id with
  | none =>
    have hfc' : List.find? (fun c => c.instanceId == inst.id && c.contactId == ct.id)
        db.conversations = none := hfc
    simp only [createConversation, hfc, Option.isSome_none, Bool.false_eq_true, if_false]
    refine ⟨_, _, rfl, rfl, rfl, rfl, rfl, rfl, rfl, rfl, ?_, Or.inr ⟨trivial, rfl, rfl, rfl⟩⟩
    show findConversationByPair
      { db with conversations := db.conversations ++ [_], nextId := db.nextId + 1 }
      inst.id ct.id = _
    rw [findConversationByPair]
    show List.find? _ (db.conversations ++ [_]) = _
    rw [List.find?_append, hfc']
    simp [List.find?]
  | some conv =>
    have hfc' : List.find? (fun c => c.instanceId == inst.id && c.contactId == ct.id)
        db.conversations = some conv := hfc
    have hp := List.find?_some hfc'
    rcases Bool.and_eq_true_iff.mp hp with ⟨h1, h2⟩
    exact ⟨conv, db, rfl, rfl, rfl, rfl, rfl, rfl, eq_of_beq h1, eq_of_beq h2, hfc,
      Or.inl ⟨rfl, rfl⟩⟩

/-- The message row built by the upsert has the instance id of the resolved
instance. -/
theorem builtMessage_instanceId (db : DB) (d : MessageUpsertData) (key : MessageKey)
    (kid : String) (inst : Instance) (ct : Contact) (conv : Conversation) :
    (builtMessage db d key kid inst ct conv).instanceId = inst.id := rfl

/-- The message row built by the upsert carries the vendor message id. -/
theorem builtMessage_messageId (db : DB) (d : MessageUpsertData) (key : MessageKey)
    (kid : String) (inst : Instance) (ct : Contact) (conv : Conversation) :
    (builtMessage db d key kid inst ct conv).messageId = kid := rfl

/-- The message row built by the upsert takes the generated id. -/
theorem builtMessage_id (db : DB) (d : MessageUpsertData) (key : MessageKey)
    (kid : String) (inst : Instance) (ct : Contact) (conv : Conversation) :
    (builtMessage db d key kid inst ct conv).id = db.nextId := rfl

/-- When the idempotency lookup finds the message, the message stage does
nothing: no insert, no conversation write, no emission. -/
theorem upsertMessageStage_of_found (db : DB) (d : MessageUpsertData) (key : MessageKey)
    (inst : Instance) (ct : Contact) (conv : Conversation) (kid : String) (m : Message)
    (hid : key.id = some kid)
    (hfound : findMessageByExternalId db inst.id kid = some m) :
    upsertMessageStage db d key inst ct conv = ⟨db, [], none⟩ := by
  simp only [upsertMessageStage, hid, hfound]

/-- When `key.id` is absent, the idempotency lookup itself throws a Prisma
validation error; nothing in this stage is written or emitted. -/
theorem upsertMessageStage_of_noId (db : DB) (d : MessageUpsertData) (key : MessageKey)
    (inst : Instance) (ct : Contact) (conv : Conversation)
    (hid : key.id = none) :
    upsertMessageStage db d key inst ct conv =
      ⟨db, [], some (.prismaValidation "message.findUnique: messageId is undefined")⟩ := by
  simp only [upsertMessageStage, hid]

/-- When the message is new, the message stage appends exactly one message row,
applies the conversation aggregate update to the conversation row, and emits
`message:new` to the conversation room, `message:new` globally and
`conversation:update` globally, once each. -/
theorem upsertMessageStage_of_fresh (db : DB) (d : MessageUpsertData) (key : MessageKey)
    (inst : Instance) (ct : Contact) (conv : Conversation) (kid : String)
    (hid : key.id = some kid)
    (hfresh : findMessageByExternalId db inst.id kid = none) :
    upsertMessageStage db d key inst ct conv =
      ⟨updateConversationRow
         { db with messages := db.messages ++ [builtMessage db d key kid inst ct conv],
                   nextId := db.nextId + 1 } conv.id
         (conversationAggregateUpdate key conv.status (getMessageContent d)
           (upsertTimestamp db d)),
       [.messageNewRoom conv.id db.nextId, .messageNewGlobal db.nextId conv.id,
        .conversationUpdate conv.id], none⟩ := by
  simp only [upsertMessageStage, hid, hfresh, createMessage, builtMessage_instanceId,
    builtMessage_messageId, Option.isSome_none, Bool.false_eq_true, if_false,
    builtMessage_id]

/-- Characterization of a full `processUpsertItem` run up to the message
stage, for an item that passes the guards on a store where the instance
resolves: the contact and conversation stages leave messages and instances
untouched and establish a findable contact and conversation. -/
theorem processUpsertItem_spec (db : DB) (instanceName : String)
    (d : MessageUpsertData) (key : MessageKey) (jid : String) (inst : Instance)
    (hkey : d.key = some key) (hjid : key.remoteJid = some jid)
    (hne : jid ≠ "") (hnb : jid ≠ "status@broadcast")
    (hinst : findInstanceByName db instanceName = some inst) :
    ∃ ct conv dbc,
      processUpsertItem db instanceName d = upsertMessageStage dbc d key inst ct conv ∧
      dbc.instances = db.instances ∧
      dbc.messages = db.messages ∧
      dbc.now = db.now ∧ dbc.ioReady = db.ioReady ∧
      ct.instanceId = inst.id ∧
      conv.instanceId = inst.id ∧ conv.contactId = ct.id ∧
      findContactByJid dbc inst.id jid = some ct ∧
      (strTruthy d.pushName && !(strTruthy ct.pushName)) = false ∧
      findConversationByPair dbc inst.id ct.id = some conv ∧
      (findContactByJid db inst.id jid = none ∨
        ∃ c0, findContactByJid db inst.id jid = some c0 ∧ ct.id = c0.id) ∧
      ((findConversationByPair db inst.id ct.id = some conv ∧
        dbc.conversations = db.conversations) ∨
       (findConversationByPair db inst.id ct.id = none ∧ conv.status = .OPEN ∧
        conv.unreadCount = 0 ∧ dbc.conversations = db.conversations ++ [conv])) := by
  obtain ⟨ct, db1, heq1, hinst1, hconv1, hmsg1, hnow1, hio1, hcti, hfct1, hnbf1, hlink1⟩ :=
    processUpsertItem_contact_stage db instanceName d key jid inst hkey hjid hne hnb hinst
  obtain ⟨conv, db2, heq2, hinst2, hct2, hmsg2, hnow2, hio2, hconvi, hconvc, hfcv2, hdisj⟩ :=
    upsertConversationStage_spec db1 d key inst ct
  refine ⟨ct, conv, db2, heq1.trans heq2, hinst2.trans hinst1, hmsg2.trans hmsg1,
    hnow2.trans hnow1, hio2.trans hio1, hcti, hconvi, hconvc, ?_, hnbf1, hfcv2, hlink1, ?_⟩
  · rw [findContactByJid_congr db1 db2 hct2]
    exact hfct1
  · rcases hdisj with ⟨h1, h2⟩ | ⟨h1, h2, h3, h4⟩
    · exact Or.inl ⟨by rw [← findConversationByPair_congr db db1 hconv1]; exact h1,
        h2.trans hconv1⟩
    · exact Or.inr ⟨by rw [← findConversationByPair_congr db db1 hconv1]; exact h1,
        h2, h3, h4.trans (by rw [hconv1])⟩

/-- `prisma.conversation.update` touches only the conversations table. -/
theorem updateConversationRow_messages (db : DB) (i : Nat) (f : Conversation → Conversation) :
    (updateConversationRow db i f).messages = db.messages := rfl

/-- `prisma.conversation.update` leaves the instances table alone. -/
theorem updateConversationRow_instances (db : DB) (i : Nat) (f : Conversation → Conversation) :
    (updateConversationRow db i f).instances = db.instances := rfl

/-- `prisma.conversation.update` leaves the contacts table alone. -/
theorem updateConversationRow_contacts (db : DB) (i : Nat) (f : Conversation → Conversation) :
    (updateConversationRow db i f).contacts = db.contacts := rfl

/-- The conversations after `prisma.conversation.update`. -/
theorem updateConversationRow_conversations (db : DB) (i : Nat)
    (f : Conversation → Conversation) :
    (updateConversationRow db i f).conversations =
      db.conversations.map (fun c => if c.id = i then f c else c) := rfl

/-- A list whose search comes up empty counts no matches. -/
theorem countP_eq_zero_of_find?_none {α : Type} {p : α → Bool} {l : List α}
    (h : l.find? p = none) : l.countP p = 0 :=
  List.countP_eq_zero.mpr (List.find?_eq_none.mp h)

/-- When the idempotency lookup finds an existing message, the whole item run
inserts nothing, emits nothing, throws nothing, and leaves every pre-existing
conversation row (in particular its unread counter) untouched: at most a fresh
conversation row with a zero unread counter may have been added by the
find-or-create stage that runs before the lookup. -/
theorem processUpsertItem_skip_of_found (db : DB) (instanceName : String)
    (d : MessageUpsertData) (key : MessageKey) (jid kid : String) (inst : Instance)
    (m : Message)
    (hkey : d.key = some key) (hjid : key.remoteJid = some jid)
    (hne : jid ≠ "") (hnb : jid ≠ "status@broadcast")
    (hinst : findInstanceByName db instanceName = some inst)
    (hid : key.id = some kid)
    (hfound : findMessageByExternalId db inst.id kid = some m) :
    (processUpsertItem db instanceName d).db.messages = db.messages ∧
    (processUpsertItem db instanceName d).events = [] ∧
    (processUpsertItem db instanceName d).error = none ∧
    ((processUpsertItem db instanceName d).db.conversations = db.conversations ∨
      ∃ cNew, cNew.unreadCount = 0 ∧
        (processUpsertItem db instanceName d).db.conversations = db.conversations ++ [cNew]) := by
  obtain ⟨ct, conv, dbc, heq, hinstE, hmsgE, hnowE, hioE, hcti, hcvi, hcvc, hfct, hpush,
    hfcv, hlink, hdisj⟩ :=
    processUpsertItem_spec db instanceName d key jid inst hkey hjid hne hnb hinst
  have hfound' : findMessageByExternalId dbc inst.id kid = some m := by
    rw [findMessageByExternalId_congr db dbc hmsgE]
    exact hfound
  rw [heq, upsertMessageStage_of_found dbc d key inst ct conv kid m hid hfound']
  refine ⟨hmsgE, rfl, rfl, ?_⟩
  rcases hdisj with ⟨_, h2⟩ | ⟨_, _, hu, h4⟩
  · exact Or.inl h2
  · exact Or.inr ⟨conv, hu, h4⟩

/-- C1: delivering a message-upsert item twice with the same instance and the
same external message id stores the message exactly once and fans out
`message:new` exactly once per topic.  First block: when the lookup by
(instanceId, externalMessageId) finds an existing message, the remainder of the
item is skipped - no insert, no fan-out, no error, and no unread-counter
increment on any pre-existing conversation row.  Second block: a fresh item
followed by its exact redelivery yields exactly one stored message with that
key, one room-scoped and one global `message:new` across both runs, and a
second run that adds no message, emits nothing and increments no pre-existing
conversation's unread counter. -/
theorem claim_C1_upsert_idempotent :
    (∀ (db : DB) (instanceName : String) (d : MessageUpsertData) (key : MessageKey)
       (jid kid : String) (inst : Instance) (m : Message),
       d.key = some key → key.remoteJid = some jid → jid ≠ "" → jid ≠ "status@broadcast" →
       findInstanceByName db instanceName = some inst → key.id = some kid →
       findMessageByExternalId db inst.id kid = some m →
       (processUpsertItem db instanceName d).db.messages = db.messages ∧
       (processUpsertItem db instanceName d).events = [] ∧
       (processUpsertItem db instanceName d).error = none ∧
       ((processUpsertItem db instanceName d).db.conversations = db.conversations ∨
         ∃ cNew, cNew.unreadCount = 0 ∧
           (processUpsertItem db instanceName d).db.conversations =
             db.conversations ++ [cNew])) ∧
    (∀ (db : DB) (instanceName : String) (d : MessageUpsertData) (key : MessageKey)
       (jid kid : String) (inst : Instance),
       d.key = some key → key.remoteJid = some jid → jid ≠ "" → jid ≠ "status@broadcast" →
       findInstanceByName db instanceName = some inst → key.id = some kid →
       findMessageByExternalId db inst.id kid = none →
       let r1 := processUpsertItem db instanceName d
       let r2 := processUpsertItem r1.db instanceName d
       r1.error = none ∧
       r1.db.messages.countP (fun x => x.instanceId == inst.id && x.messageId == kid) = 1 ∧
       r2.db.messages.countP (fun x => x.instanceId == inst.id && x.messageId == kid) = 1 ∧
       r2.db.messages = r1.db.messages ∧
       r2.events = [] ∧ r2.error = none ∧
       (r1.events ++ r2.events).countP SocketEvent.isMessageNewRoom = 1 ∧
       (r1.events ++ r2.events).countP SocketEvent.isMessageNewGlobal = 1 ∧
       (r2.db.conversations = r1.db.conversations ∨
         ∃ cNew, cNew.unreadCount = 0 ∧
           r2.db.conversations = r1.db.conversations ++ [cNew])) := by
  constructor
  · intro db instanceName d key jid kid inst m hkey hjid hne hnb hinst hid hfound
    exact processUpsertItem_skip_of_found db instanceName d key jid kid inst m
      hkey hjid hne hnb hinst hid hfound
  · intro db instanceName d key jid kid inst hkey hjid hne hnb hinst hid hfresh
    obtain ⟨ct, conv, dbc, heq, hinstE, hmsgE, hnowE, hioE, hcti, hcvi, hcvc, hfct, hpush,
      hfcv, hlink, hdisj⟩ :=
      processUpsertItem_spec db instanceName d key jid inst hkey hjid hne hnb hinst
    have hfresh' : findMessageByExternalId dbc inst.id kid = none := by
      rw [findMessageByExternalId_congr db dbc hmsgE]
      exact hfresh
    have hrun1 := upsertMessageStage_of_fresh dbc d key inst ct conv kid hid hfresh'
    rw [heq, hrun1]
    set bm := builtMessage dbc d key kid inst ct conv with hbm
    set dbBig := updateConversationRow
      { dbc with messages := dbc.messages ++ [bm], nextId := dbc.nextId + 1 } conv.id
      (conversationAggregateUpdate key conv.status (getMessageContent d)
        (upsertTimestamp dbc d)) with hdbBig
    have hbmP : (fun x : Message => x.instanceId == inst.id && x.messageId == kid) bm = true := by
      simp [hbm, builtMessage_instanceId, builtMessage_messageId]
    have hcount0 : db.messages.countP
        (fun x => x.instanceId == inst.id && x.messageId == kid) = 0 :=
      countP_eq_zero_of_find?_none hfresh
    have hmsgs1 : dbBig.messages = db.messages ++ [bm] := by
      rw [hdbBig, updateConversationRow_messages]
      show dbc.messages ++ [bm] = db.messages ++ [bm]
      rw [hmsgE]
    have hcount1 : (db.messages ++ [bm]).countP
        (fun x => x.instanceId == inst.id && x.messageId == kid) = 1 := by
      rw [List.countP_append, hcount0, List.countP_cons, if_pos hbmP]
      rfl
    have hfound1 : findMessageByExternalId dbBig inst.id kid = some bm := by
      simp only [findMessageByExternalId]
      rw [hmsgs1, List.find?_append]
      have h0 : List.find? (fun x => x.instanceId == inst.id && x.messageId == kid)
          db.messages = none := hfresh
      rw [h0]
      simp [List.find?, hbmP]
    have hinstBig : dbBig.instances = db.instances := by
      rw [hdbBig, updateConversationRow_instances]
      show dbc.instances = db.instances
      exact hinstE
    have hinst1 : findInstanceByName dbBig instanceName = some inst := by
      rw [findInstanceByName_congr db dbBig hinstBig]
      exact hinst
    obtain ⟨hskipM, hskipE, hskipErr, hskipConv⟩ :=
      processUpsertItem_skip_of_found dbBig instanceName d key jid kid inst bm
        hkey hjid hne hnb hinst1 hid hfound1
    refine ⟨rfl, by rw [hmsgs1]; exact hcount1, ?_, hskipM, hskipE, hskipErr, ?_, ?_, hskipConv⟩
    · rw [hskipM, hmsgs1]
      exact hcount1
    · rw [hskipE]
      simp [SocketEvent.isMessageNewRoom, List.countP_cons, List.countP_nil]
    · rw [hskipE]
      simp [SocketEvent.isMessageNewGlobal, List.countP_cons, List.countP_nil]

/-- Witness for C1 at the spec's concrete scenario: one stored MSG1 after the
first delivery and no emission on redelivery. -/
theorem claim_C1_upsert_idempotent_witness :
    (processUpsertItem wDb0 "shop1" wItem).db.messages.countP
        (fun x => x.instanceId == 1 && x.messageId == "MSG1") = 1 ∧
    (processUpsertItem (processUpsertItem wDb0 "shop1" wItem).db "shop1" wItem).events = [] :=
  ⟨(claim_C1_upsert_idempotent.2 wDb0 "shop1" wItem wKey wJid "MSG1" wInstance
      rfl rfl (by decide) (by decide) rfl rfl rfl).2.1,
   (claim_C1_upsert_idempotent.2 wDb0 "shop1" wItem wKey wJid "MSG1" wInstance
      rfl rfl (by decide) (by decide) rfl rfl rfl).2.2.2.2.1⟩

/-- C2 counterexample: the concrete payload whose message object carries both
the plain-text field "oi" and an image with caption "legenda" is normalized as
TEXT with the plain text as content - not as IMAGE with the caption, as the
claim states. -/
theorem claim_C2_counterexample :
    (getMessageContent wTextAndImageItem).type = .TEXT ∧
    (getMessageContent wTextAndImageItem).type ≠ .IMAGE ∧
    (getMessageContent wTextAndImageItem).content = some "oi" := by
  decide

/-- C2 (amended): a payload whose message object carries both a truthy
plain-text `conversation` field and an `imageMessage` is normalized as TEXT
with content equal to the plain text: `getMessageContent` checks the
plain-text field before the image variant. -/
theorem claim_C2_text_checked_before_image (d : MessageUpsertData) (m : MessageContent)
    (hm : d.message = some m) (htext : strTruthy m.conversation = true)
    (himg : m.imageMessage.isSome = true) :
    getMessageContent d = ⟨m.conversation, .TEXT, none, none, none⟩ := by
  simp only [getMessageContent, hm, htext, if_true]

/-- Witness for the amended C2 at the concrete both-variants payload. -/
theorem claim_C2_text_checked_before_image_witness :
    getMessageContent wTextAndImageItem = ⟨some "oi", .TEXT, none, none, none⟩ :=
  claim_C2_text_checked_before_image wTextAndImageItem wTextAndImage rfl (by decide) (by decide)

/-- The inline `switch` of `handleMessagesUpdate` computes the spec's fixed
status table (a falsy code 0 never enters the `switch`; the table sends it to
the unchanged default as well). -/
theorem newStatus_eq_specStatusTable (code : Nat) (cur : MessageStatus) :
    (if code = 0 then cur
     else if code = 2 then MessageStatus.SENT
     else if code = 3 then MessageStatus.DELIVERED
     else if code = 4 then MessageStatus.READ
     else cur) = specStatusTable code cur := by
  by_cases h0 : code = 0
  · subst h0
    simp [specStatusTable]
  · simp [specStatusTable, h0]

/-- C5 counterexample: vendor code 3 (DELIVERED) applied to the stored message
that is already READ re-emits `message:update` (with the regressed status),
contrary to the claim that no event fires. -/
theorem claim_C5_counterexample :
    (processUpdateItem wDbRead "shop1" wUpd3).events =
      [.messageUpdateRoom 5 3 .DELIVERED] := by
  decide

/-- C5 (amended): applying vendor code 3 to a message already at DELIVERED is
a suppressed no-op (no write, no event); applying it to a message at READ maps
to DELIVERED, which differs from the current status, so the handler persists
the regression and emits `message:update` once. -/
theorem claim_C5_delivered_on_read_refires (db : DB) (instanceName : String)
    (u : MessageUpdateItem) (k : MessageUpdateKey) (kid : String) (inst : Instance)
    (msg : Message)
    (hk : u.key = some k) (hkid : k.id = some kid) (hne : kid ≠ "")
    (hinst : findInstanceByName db instanceName = some inst)
    (hmsg : findMessageByExternalId db inst.id kid = some msg)
    (hupd : u.update = some ⟨some 3⟩) (hio : db.ioReady = true) :
    (msg.status = .DELIVERED → processUpdateItem db instanceName u = ⟨db, [], none⟩) ∧
    (msg.status = .READ →
      processUpdateItem db instanceName u =
        ⟨updateMessageRow db msg.id (fun x => { x with status := .DELIVERED }),
         [.messageUpdateRoom msg.conversationId msg.id .DELIVERED], none⟩) := by
  constructor <;> intro hst <;>
    simp [processUpdateItem, hk, hkid, hne, hinst, hmsg, hupd, hst, hio]

/-- Witness for the amended C5: code 3 on the DELIVERED store is silent, code 3
on the READ store emits the regression. -/
theorem claim_C5_delivered_on_read_refires_witness :
    processUpdateItem wDbDelivered "shop1" wUpd3 = ⟨wDbDelivered, [], none⟩ ∧
    processUpdateItem wDbRead "shop1" wUpd3 =
      ⟨updateMessageRow wDbRead 3 (fun x => { x with status := .DELIVERED }),
       [.messageUpdateRoom 5 3 .DELIVERED], none⟩ :=
  ⟨(claim_C5_delivered_on_read_refires wDbDelivered "shop1" wUpd3 ⟨some "MSG1", none, none⟩
      "MSG1" wInstance wMessageDelivered rfl rfl (by decide) rfl rfl rfl rfl).1 rfl,
   (claim_C5_delivered_on_read_refires wDbRead "shop1" wUpd3 ⟨some "MSG1", none, none⟩
      "MSG1" wInstance wMessageRead rfl rfl (by decide) rfl rfl rfl rfl).2 rfl⟩

/-- C8: the status reconciler resolves the target by (instanceId,
externalMessageId) and skips silently when it is missing; a present vendor code
acts through the fixed table (2→SENT, 3→DELIVERED, 4→READ, others leave the
status); when the mapped status equals the current one nothing is written or
emitted, and when it differs the row is persisted and a single
`{messageId, status}` delta goes to the conversation-scoped topic. -/
theorem claim_C8_status_reconciler (db : DB) (instanceName : String)
    (u : MessageUpdateItem) (k : MessageUpdateKey) (kid : String) (inst : Instance)
    (hk : u.key = some k) (hkid : k.id = some kid) (hne : kid ≠ "")
    (hinst : findInstanceByName db instanceName = some inst) (hio : db.ioReady = true) :
    (findMessageByExternalId db inst.id kid = none →
      processUpdateItem db instanceName u = ⟨db, [], none⟩) ∧
    (∀ msg code, findMessageByExternalId db inst.id kid = some msg →
      u.update = some ⟨some code⟩ →
      (specStatusTable code msg.status = msg.status →
        processUpdateItem db instanceName u = ⟨db, [], none⟩) ∧
      (specStatusTable code msg.status ≠ msg.status →
        processUpdateItem db instanceName u =
          ⟨updateMessageRow db msg.id
             (fun x => { x with status := specStatusTable code msg.status }),
           [.messageUpdateRoom msg.conversationId msg.id (specStatusTable code msg.status)],
           none⟩)) := by
  constructor
  · intro hnone
    simp [processUpdateItem, hk, hkid, hne, hinst, hnone]
  · intro msg code hmsg hupd
    constructor <;> intro hcmp <;>
      simp only [processUpdateItem, hk, hkid, if_neg hne, hinst, hmsg, hupd,
        newStatus_eq_specStatusTable, hcmp, if_pos, if_neg, hio] <;>
      simp [hcmp, hio]

/-- Witness for C8: code 4 on the DELIVERED store persists READ and emits one
delta; an unknown target id is skipped. -/
theorem claim_C8_status_reconciler_witness :
    processUpdateItem wDbDelivered "shop1" wUpd4 =
      ⟨updateMessageRow wDbDelivered 3 (fun x => { x with status := .READ }),
       [.messageUpdateRoom 5 3 .READ], none⟩ ∧
    processUpdateItem wDbDelivered "shop1" ⟨some ⟨some "NOPE", none, none⟩, some ⟨some 4⟩⟩ =
      ⟨wDbDelivered, [], none⟩ :=
  ⟨((claim_C8_status_reconciler wDbDelivered "shop1" wUpd4 ⟨some "MSG1", none, none⟩
      "MSG1" wInstance rfl rfl (by decide) rfl rfl).2 wMessageDelivered 4 rfl rfl).2
      (by decide),
   (claim_C8_status_reconciler wDbDelivered "shop1"
      ⟨some ⟨some "NOPE", none, none⟩, some ⟨some 4⟩⟩ ⟨some "NOPE", none, none⟩
      "NOPE" wInstance rfl rfl (by decide) rfl rfl).1 rfl⟩

/-- C3 counterexample: a router-level well-formed webhook (event string
"messages.upsert", known instance) whose single item makes the upsert handler
throw a database validation error (its key lacks the external message id) is
answered with 500 and an error body - the handler exception does surface as a
non-200 response through the endpoint's single catch block. -/
theorem claim_C3_counterexample :
    (handleWebhook wDb0 ⟨"messages.upsert", "shop1", .upsertOne wBadItem⟩).status = 500 ∧
    (handleWebhook wDb0 ⟨"messages.upsert", "shop1", .upsertOne wBadItem⟩).received = false := by
  decide

/-- C3 (amended): the webhook endpoint answers 200 `{received: true}` exactly
when the dispatched processing finishes without an exception; any exception -
whether a router-level failure or one thrown inside a per-event handler - is
caught by the endpoint's single try/catch and answered with 500 and an error
body (so a handler exception does reach the external gateway as a non-200). -/
theorem claim_C3_webhook_response (db : DB) (p : WebhookPayload) :
    (((handleWebhook db p).status = 200 ∧ (handleWebhook db p).received = true) ∨
     ((handleWebhook db p).status = 500 ∧ (handleWebhook db p).received = false)) ∧
    ((handleWebhook db p).status = 200 ↔ (webhookDispatch db p).error = none) ∧
    (handleWebhook db p).db = (webhookDispatch db p).db ∧
    (handleWebhook db p).events = (webhookDispatch db p).events := by
  cases herr : (webhookDispatch db p).error with
  | none => simp [handleWebhook, herr]
  | some e => simp [handleWebhook, herr]

/-- C4 counterexample: in the concrete two-item batch whose first item throws
(missing external message id) and whose second item is valid and fresh, the
whole batch aborts with the thrown error and the valid sibling is never
persisted. -/
theorem claim_C4_counterexample :
    (handleMessagesUpsert wDb0 "shop1" [wBadItem, wItem]).error =
      some (.prismaValidation "message.findUnique: messageId is undefined") ∧
    (handleMessagesUpsert wDb0 "shop1" [wBadItem, wItem]).db.messages = [] := by
  decide

/-- C4 (amended): items rejected by the handler's explicit guards (missing key,
missing or falsy remoteJid, the status broadcast pseudo-jid, an unknown
instance) are skipped individually and the remaining siblings still run; but an
exception thrown while processing an item (for example the validation or
uniqueness error of a storage call) is not caught per item: it ends the batch,
the remaining siblings are not processed, and the error propagates to the
router. -/
theorem claim_C4_per_item_failures (db : DB) (instanceName : String) :
    (∀ (d : MessageUpsertData) (rest : List MessageUpsertData), d.key = none →
      processUpsertItems db instanceName (d :: rest) =
        processUpsertItems db instanceName rest) ∧
    (∀ (d : MessageUpsertData) (k : MessageKey) (rest : List MessageUpsertData),
      d.key = some k → k.remoteJid = none →
      processUpsertItems db instanceName (d :: rest) =
        processUpsertItems db instanceName rest) ∧
    (∀ (d : MessageUpsertData) (k : MessageKey) (jid : String)
      (rest : List MessageUpsertData),
      d.key = some k → k.remoteJid = some jid →
      (jid = "" ∨ jid = "status@broadcast") →
      processUpsertItems db instanceName (d :: rest) =
        processUpsertItems db instanceName rest) ∧
    (∀ (d : MessageUpsertData) (k : MessageKey) (jid : String)
      (rest : List MessageUpsertData),
      d.key = some k → k.remoteJid = some jid → jid ≠ "" → jid ≠ "status@broadcast" →
      findInstanceByName db instanceName = none →
      processUpsertItems db instanceName (d :: rest) =
        processUpsertItems db instanceName rest) ∧
    (∀ (d : MessageUpsertData) (rest : List MessageUpsertData) (e : HandlerError),
      (processUpsertItem db instanceName d).error = some e →
      processUpsertItems db instanceName (d :: rest) =
        ⟨(processUpsertItem db instanceName d).db,
         (processUpsertItem db instanceName d).events, some e⟩) := by
  refine ⟨?_, ?_, ?_, ?_, ?_⟩
  · intro d rest hkey
    have hskip : processUpsertItem db instanceName d = ⟨db, [], none⟩ := by
      simp [processUpsertItem, hkey]
    simp [processUpsertItems, hskip]
  · intro d k rest hkey hjid
    have hskip : processUpsertItem db instanceName d = ⟨db, [], none⟩ := by
      simp [processUpsertItem, hkey, hjid]
    simp [processUpsertItems, hskip]
  · intro d k jid rest hkey hjid hbad
    have hskip : processUpsertItem db instanceName d = ⟨db, [], none⟩ := by
      rcases hbad with h | h <;> simp [processUpsertItem, hkey, hjid, h]
    simp [processUpsertItems, hskip]
  · intro d k jid rest hkey hjid hne hnb hinst
    have hskip : processUpsertItem db instanceName d = ⟨db, [], none⟩ := by
      simp [processUpsertItem, hkey, hjid, hne, hnb, hinst]
    simp [processUpsertItems, hskip]
  · intro d rest e herr
    simp [processUpsertItems, herr]

/-- Witness for the amended C4: the empty-key guard skips without aborting, and
the concrete throwing item ends its batch with the error. -/
theorem claim_C4_per_item_failures_witness :
    processUpsertItems wDb0 "shop1"
        ([⟨none, none, none, none⟩, wItem] : List MessageUpsertData) =
      processUpsertItems wDb0 "shop1" [wItem] ∧
    processUpsertItems wDb0 "shop1" [wBadItem, wItem] =
      ⟨(processUpsertItem wDb0 "shop1" wBadItem).db,
       (processUpsertItem wDb0 "shop1" wBadItem).events,
       some (.prismaValidation "message.findUnique: messageId is undefined")⟩ :=
  ⟨(claim_C4_per_item_failures wDb0 "shop1").1 ⟨none, none, none, none⟩ [wItem] rfl,
   (claim_C4_per_item_failures wDb0 "shop1").2.2.2.2 wBadItem [wItem]
     (.prismaValidation "message.findUnique: messageId is undefined") (by decide)⟩

/-- The conversation aggregate update keeps the instance id. -/
theorem conversationAggregateUpdate_instanceId (key : MessageKey)
    (fs : ConversationStatus) (nc : NormalizedContent) (ts : Nat) (c : Conversation) :
    (conversationAggregateUpdate key fs nc ts c).instanceId = c.instanceId := by
  rw [conversationAggregateUpdate]
  split <;> rfl

/-- The conversation aggregate update keeps the contact id. -/
theorem conversationAggregateUpdate_contactId (key : MessageKey)
    (fs : ConversationStatus) (nc : NormalizedContent) (ts : Nat) (c : Conversation) :
    (conversationAggregateUpdate key fs nc ts c).contactId = c.contactId := by
  rw [conversationAggregateUpdate]
  split <;> rfl

/-- The conversation aggregate update keeps the row id. -/
theorem conversationAggregateUpdate_id (key : MessageKey)
    (fs : ConversationStatus) (nc : NormalizedContent) (ts : Nat) (c : Conversation) :
    (conversationAggregateUpdate key fs nc ts c).id = c.id := by
  rw [conversationAggregateUpdate]
  split <;> rfl

/-- For an inbound message the aggregate update increments the unread counter
by exactly one. -/
theorem conversationAggregateUpdate_unread_inbound (key : MessageKey)
    (fs : ConversationStatus) (nc : NormalizedContent) (ts : Nat) (c : Conversation)
    (h : key.fromMe = false) :
    (conversationAggregateUpdate key fs nc ts c).unreadCount = c.unreadCount + 1 := by
  simp [conversationAggregateUpdate, h]

/-- For an agent message the aggregate update keeps the unread counter. -/
theorem conversationAggregateUpdate_unread_agent (key : MessageKey)
    (fs : ConversationStatus) (nc : NormalizedContent) (ts : Nat) (c : Conversation)
    (h : key.fromMe = true) :
    (conversationAggregateUpdate key fs nc ts c).unreadCount = c.unreadCount := by
  simp [conversationAggregateUpdate, h]

/-- For an inbound message the aggregate update reopens a RESOLVED fetched
status and otherwise keeps the row status. -/
theorem conversationAggregateUpdate_status_inbound (key : MessageKey)
    (fs : ConversationStatus) (nc : NormalizedContent) (ts : Nat) (c : Conversation)
    (h : key.fromMe = false) :
    (conversationAggregateUpdate key fs nc ts c).status =
      (if fs = .RESOLVED then .OPEN else c.status) := by
  simp [conversationAggregateUpdate, h]

/-- For an agent message the aggregate update keeps the row status. -/
theorem conversationAggregateUpdate_status_agent (key : MessageKey)
    (fs : ConversationStatus) (nc : NormalizedContent) (ts : Nat) (c : Conversation)
    (h : key.fromMe = true) :
    (conversationAggregateUpdate key fs nc ts c).status = c.status := by
  simp [conversationAggregateUpdate, h]

/-- Looking a conversation up by its pair after a row update whose function
keeps the pair fields. -/
theorem findConversationByPair_updateRow (db : DB) (i c convId : Nat)
    (f : Conversation → Conversation)
    (hf1 : ∀ x, (f x).instanceId = x.instanceId)
    (hf2 : ∀ x, (f x).contactId = x.contactId) :
    findConversationByPair (updateConversationRow db convId f) i c =
      (findConversationByPair db i c).map (fun x => if x.id = convId then f x else x) := by
  rw [findConversationByPair, findConversationByPair, updateConversationRow]
  exact find?_map_pred_inv _ _
    (fun a => by by_cases h : a.id = convId <;> simp [h, hf1, hf2]) db.conversations

/-- C6: a fully processed inbound (fromMe = false) upsert item increments its
conversation's unread counter by exactly one and flips a RESOLVED status to
OPEN (leaving any other status alone), while an agent-originated
(fromMe = true) item leaves both the unread counter and the status unchanged;
in both cases the run finishes without error. -/
theorem claim_C6_reopen_and_unread (db : DB) (instanceName : String)
    (d : MessageUpsertData) (key : MessageKey) (jid kid : String) (inst : Instance)
    (ct : Contact) (conv : Conversation)
    (hkey : d.key = some key) (hjid : key.remoteJid = some jid)
    (hne : jid ≠ "") (hnb : jid ≠ "status@broadcast")
    (hinst : findInstanceByName db instanceName = some inst)
    (hct : findContactByJid db inst.id jid = some ct)
    (hconv : findConversationByPair db inst.id ct.id = some conv)
    (hid : key.id = some kid)
    (hfresh : findMessageByExternalId db inst.id kid = none) :
    (processUpsertItem db instanceName d).error = none ∧
    ∃ conv',
      findConversationByPair (processUpsertItem db instanceName d).db inst.id ct.id
        = some conv' ∧
      (key.fromMe = false →
        conv'.unreadCount = conv.unreadCount + 1 ∧
        (conv.status = .RESOLVED → conv'.status = .OPEN) ∧
        (conv.status ≠ .RESOLVED → conv'.status = conv.status)) ∧
      (key.fromMe = true →
        conv'.unreadCount = conv.unreadCount ∧ conv'.status = conv.status) := by
  obtain ⟨ctC, convC, dbc, heq, hinstE, hmsgE, hnowE, hioE, hcti, hcvi, hcvc, hfct, hpush,
    hfcv, hlink, hdisj⟩ :=
    processUpsertItem_spec db instanceName d key jid inst hkey hjid hne hnb hinst
  have hctid : ctC.id = ct.id := by
    rcases hlink with h | ⟨c0, hc0, hid'⟩
    · rw [h] at hct
      exact absurd hct (by simp)
    · rw [hct] at hc0
      cases hc0
      exact hid'
  have hconvC : convC = conv ∧ dbc.conversations = db.conversations := by
    rcases hdisj with ⟨hfound, hconvsE⟩ | ⟨hnoneC, _, _, _⟩
    · rw [hctid, hconv] at hfound
      cases hfound
      exact ⟨rfl, hconvsE⟩
    · rw [hctid, hconv] at hnoneC
      cases hnoneC
  obtain ⟨hconvCeq, hconvsE⟩ := hconvC
  subst hconvCeq
  have hfresh' : findMessageByExternalId dbc inst.id kid = none := by
    rw [findMessageByExternalId_congr db dbc hmsgE]
    exact hfresh
  rw [heq, upsertMessageStage_of_fresh dbc d key inst ctC convC kid hid hfresh']
  refine ⟨rfl, ?_⟩
  have hfind : findConversationByPair
      (updateConversationRow
        { dbc with messages := dbc.messages ++ [builtMessage dbc d key kid inst ctC convC],
                   nextId := dbc.nextId + 1 } convC.id
        (conversationAggregateUpdate key convC.status (getMessageContent d)
          (upsertTimestamp dbc d))) inst.id ct.id =
      some (conversationAggregateUpdate key convC.status (getMessageContent d)
        (upsertTimestamp dbc d) convC) := by
    rw [findConversationByPair_updateRow _ _ _ _ _
      (conversationAggregateUpdate_instanceId _ _ _ _)
      (conversationAggregateUpdate_contactId _ _ _ _)]
    have : findConversationByPair
        { dbc with messages := dbc.messages ++ [builtMessage dbc d key kid inst ctC convC],
                   nextId := dbc.nextId + 1 } inst.id ct.id = some convC := by
      show findConversationByPair dbc inst.id ct.id = some convC
      rw [← hctid]
      exact hfcv
    rw [this, Option.map_some', if_pos rfl]
  refine ⟨_, hfind, ?_, ?_⟩
  · intro hfm
    refine ⟨conversationAggregateUpdate_unread_inbound _ _ _ _ _ hfm, ?_, ?_⟩
    · intro hres
      rw [conversationAggregateUpdate_status_inbound _ _ _ _ _ hfm, if_pos hres]
    · intro hres
      rw [conversationAggregateUpdate_status_inbound _ _ _ _ _ hfm, if_neg hres]
  · intro hfm
    exact ⟨conversationAggregateUpdate_unread_agent _ _ _ _ _ hfm,
      conversationAggregateUpdate_status_agent _ _ _ _ _ hfm⟩

/-- Witness for C6 at the concrete RESOLVED conversation: the inbound item
reopens it and bumps the unread counter from 3 to 4. -/
theorem claim_C6_reopen_and_unread_witness :
    (processUpsertItem wDbConv "shop1" wItem).error = none ∧
    ∃ conv',
      findConversationByPair (processUpsertItem wDbConv "shop1" wItem).db 1 2 = some conv' ∧
      conv'.unreadCount = 4 ∧ conv'.status = .OPEN := by
  obtain ⟨herr, conv', hfind, hinb, _⟩ :=
    claim_C6_reopen_and_unread wDbConv "shop1" wItem wKey wJid "MSG1" wInstance
      wContact wConversationResolved rfl rfl (by decide) (by decide) rfl rfl rfl rfl rfl
  obtain ⟨hu, hs, _⟩ := hinb rfl
  exact ⟨herr, conv', hfind, hu, hs rfl⟩
/-- The message stage never touches the instances table. -/
theorem upsertMessageStage_instances (db : DB) (d : MessageUpsertData) (key : MessageKey)
    (inst : Instance) (ct : Contact) (conv : Conversation) :
    (upsertMessageStage db d key inst ct conv).db.instances = db.instances := by
  rcases hid : key.id with _ | kid
  · rw [upsertMessageStage_of_noId db d key inst ct conv hid]
  · rcases hfm : findMessageByExternalId db inst.id kid with _ | m
    · rw [upsertMessageStage_of_fresh db d key inst ct conv kid hid hfm]
      rfl
    · rw [upsertMessageStage_of_found db d key inst ct conv kid m hid hfm]

/-- The message stage never touches the contacts table. -/
theorem upsertMessageStage_contacts (db : DB) (d : MessageUpsertData) (key : MessageKey)
    (inst : Instance) (ct : Contact) (conv : Conversation) :
    (upsertMessageStage db d key inst ct conv).db.contacts = db.contacts := by
  rcases hid : key.id with _ | kid
  · rw [upsertMessageStage_of_noId db d key inst ct conv hid]
  · rcases hfm : findMessageByExternalId db inst.id kid with _ | m
    · rw [upsertMessageStage_of_fresh db d key inst ct conv kid hid hfm]
      rfl
    · rw [upsertMessageStage_of_found db d key inst ct conv kid m hid hfm]

/-- The conversations left by the message stage: either untouched, or mapped
through a row update that keeps the id, instance id and contact id of every
row. -/
theorem upsertMessageStage_conv_shape (db : DB) (d : MessageUpsertData) (key : MessageKey)
    (inst : Instance) (ct : Contact) (conv : Conversation) :
    (upsertMessageStage db d key inst ct conv).db.conversations = db.conversations ∨
    ∃ g : Conversation → Conversation,
      (∀ x, (g x).instanceId = x.instanceId) ∧
      (∀ x, (g x).contactId = x.contactId) ∧
      (∀ x, (g x).id = x.id) ∧
      (upsertMessageStage db d key inst ct conv).db.conversations =
        db.conversations.map g := by
  rcases hid : key.id with _ | kid
  · rw [upsertMessageStage_of_noId db d key inst ct conv hid]
    exact Or.inl rfl
  · rcases hfm : findMessageByExternalId db inst.id kid with _ | m
    · rw [upsertMessageStage_of_fresh db d key inst ct conv kid hid hfm]
      refine Or.inr ⟨fun c => if c.id = conv.id then
        conversationAggregateUpdate key conv.status (getMessageContent d)
          (upsertTimestamp db d) c else c, ?_, ?_, ?_, rfl⟩
      · intro x
        by_cases h : x.id = conv.id <;> simp [h, conversationAggregateUpdate_instanceId]
      · intro x
        by_cases h : x.id = conv.id <;> simp [h, conversationAggregateUpdate_contactId]
      · intro x
        by_cases h : x.id = conv.id <;> simp [h, conversationAggregateUpdate_id]
    · rw [upsertMessageStage_of_found db d key inst ct conv kid m hid hfm]
      exact Or.inl rfl

/-- Appending a row whose pair is not yet present keeps the one-per-pair bound. -/
theorem convSingleton_append (l : List Conversation) (conv : Conversation)
    (h : ∀ iid cid : Nat, l.countP (fun c => c.instanceId == iid && c.contactId == cid) ≤ 1)
    (hnone : l.find? (fun c =>
      c.instanceId == conv.instanceId && c.contactId == conv.contactId) = none) :
    ∀ iid cid : Nat,
      (l ++ [conv]).countP (fun c => c.instanceId == iid && c.contactId == cid) ≤ 1 := by
  intro iid cid
  rw [List.countP_append]
  by_cases hpair : conv.instanceId = iid ∧ conv.contactId = cid
  · have h0 : l.countP (fun c => c.instanceId == iid && c.contactId == cid) = 0 := by
      rw [← hpair.1, ← hpair.2]
      exact countP_eq_zero_of_find?_none hnone
    rw [h0]
    simp only [List.countP_cons, List.countP_nil, Nat.zero_add]
    split <;> omega
  · have h1 : (fun c : Conversation => c.instanceId == iid && c.contactId == cid) conv
        = false := by
      rcases not_and_or.mp hpair with hne | hne <;> simp [hne]
    have h0 : List.countP (fun c : Conversation => c.instanceId == iid && c.contactId == cid)
        [conv] = 0 := by
      simp [List.countP_cons, h1]
    rw [h0]
    simpa using h iid cid

/-- One item of the upsert handler keeps the one-conversation-per-pair bound. -/
theorem processUpsertItem_convSingleton (db : DB) (instanceName : String)
    (d : MessageUpsertData) (h : ConversationSingleton db) :
    ConversationSingleton (processUpsertItem db instanceName d).db := by
  rcases hkey : d.key with _ | key
  · simpa [processUpsertItem, hkey] using h
  rcases hjid : key.remoteJid with _ | jid
  · simpa [processUpsertItem, hkey, hjid] using h
  by_cases hne : jid = ""
  · simpa [processUpsertItem, hkey, hjid, hne] using h
  by_cases hnb : jid = "status@broadcast"
  · simpa [processUpsertItem, hkey, hjid, hne, hnb] using h
  rcases hinst : findInstanceByName db instanceName with _ | inst
  · simpa [processUpsertItem, hkey, hjid, hne, hnb, hinst] using h
  obtain ⟨ctC, convC, dbc, heq, hinstE, hmsgE, hnowE, hioE, hcti, hcvi, hcvc, hfct, hpush,
    hfcv, hlink, hdisj⟩ :=
    processUpsertItem_spec db instanceName d key jid inst hkey hjid hne hnb hinst
  have hdbc : ConversationSingleton dbc := by
    rcases hdisj with ⟨_, hconvsE⟩ | ⟨hnoneC, _, _, happ⟩
    · intro iid cid
      rw [hconvsE]
      exact h iid cid
    · intro iid cid
      rw [happ]
      refine convSingleton_append db.conversations convC h ?_ iid cid
      rw [hcvi, hcvc]
      exact hnoneC
  rw [heq]
  rcases upsertMessageStage_conv_shape dbc d key inst ctC convC with hsame |
    ⟨g, hg1, hg2, _, hmap⟩
  · intro iid cid
    rw [hsame]
    exact hdbc iid cid
  · intro iid cid
    rw [hmap, countP_map_pred_inv _ g (fun a => by simp [hg1, hg2])]
    exact hdbc iid cid

/-- A batch of upsert items keeps the one-conversation-per-pair bound. -/
theorem processUpsertItems_convSingleton (db : DB) (instanceName : String)
    (ds : List MessageUpsertData) (h : ConversationSingleton db) :
    ConversationSingleton (processUpsertItems db instanceName ds).db := by
  induction ds generalizing db with
  | nil => simpa [processUpsertItems] using h
  | cons d rest ih =>
    have h1 := processUpsertItem_convSingleton db instanceName d h
    rcases herr : (processUpsertItem db instanceName d).error with _ | e
    · simpa [processUpsertItems, herr] using
        ih (processUpsertItem db instanceName d).db h1
    · simpa [processUpsertItems, herr] using h1

/-- The update handler never touches the conversations table. -/
theorem processUpdateItem_conversations (db : DB) (instanceName : String)
    (u : MessageUpdateItem) :
    (processUpdateItem db instanceName u).db.conversations = db.conversations := by
  rcases hk : u.key with _ | k
  · simp [processUpdateItem, hk]
  rcases hkid : k.id with _ | kid
  · simp [processUpdateItem, hk, hkid]
  by_cases hne : kid = ""
  · simp [processUpdateItem, hk, hkid, hne]
  rcases hinst : findInstanceByName db instanceName with _ | inst
  · simp [processUpdateItem, hk, hkid, hne, hinst]
  rcases hm : findMessageByExternalId db inst.id kid with _ | msg
  · simp [processUpdateItem, hk, hkid, hne, hinst, hm]
  · simp only [processUpdateItem, hk, hkid, if_neg hne, hinst, hm]
    split
    · rfl
    · split <;> rfl

/-- A batch of update items never touches the conversations table. -/
theorem processUpdateItems_conversations (db : DB) (instanceName : String)
    (us : List MessageUpdateItem) :
    (processUpdateItems db instanceName us).db.conversations = db.conversations := by
  induction us generalizing db with
  | nil => rfl
  | cons u rest ih =>
    rcases herr : (processUpdateItem db instanceName u).error with _ | e
    · simp only [processUpdateItems, herr]
      rw [ih (processUpdateItem db instanceName u).db,
        processUpdateItem_conversations]
    · simp only [processUpdateItems, herr]
      rw [processUpdateItem_conversations]

/-- The connection handler never touches the conversations table. -/
theorem handleConnectionUpdate_conversations (db : DB) (instanceName : String)
    (data : ConnectionUpdateData) :
    (handleConnectionUpdate db instanceName data).db.conversations = db.conversations := by
  by_cases hio : db.ioReady
  · rcases hinst : findInstanceByName db instanceName with _ | inst <;>
      simp [handleConnectionUpdate, hio, hinst, updateInstanceRow]
  · simp [handleConnectionUpdate, hio]

/-- The QR handler never touches the conversations table. -/
theorem handleQrCodeUpdate_conversations (db : DB) (instanceName : String)
    (data : QrCodeUpdateData) :
    (handleQrCodeUpdate db instanceName data).db.conversations = db.conversations := by
  by_cases hio : db.ioReady
  · rcases hinst : findInstanceByName db instanceName with _ | inst
    · simp [handleQrCodeUpdate, hio, hinst]
    · rcases hqr : data.qrcode with _ | qr
      · simp [handleQrCodeUpdate, hio, hinst, hqr]
      · rcases hb : qr.base64 with _ | b64
        · simp [handleQrCodeUpdate, hio, hinst, hqr, hb]
        · by_cases hbe : b64 = "" <;>
            simp [handleQrCodeUpdate, hio, hinst, hqr, hb, hbe, updateInstanceRow]
  · simp [handleQrCodeUpdate, hio]

/-- The dispatcher keeps the one-conversation-per-pair bound, whatever the
event and payload. -/
theorem webhookDispatch_convSingleton (db : DB) (p : WebhookPayload)
    (h : ConversationSingleton db) :
    ConversationSingleton (webhookDispatch db p).db := by
  simp only [webhookDispatch]
  split_ifs with h1 h2 h3 h4
  · rw [handleMessagesUpsert]
    split_ifs with hio
    · exact processUpsertItems_convSingleton db p.instanceName _ h
    · exact h
  · intro iid cid
    rw [handleMessagesUpdate, processUpdateItems_conversations]
    exact h iid cid
  · intro iid cid
    rw [handleConnectionUpdate_conversations]
    exact h iid cid
  · intro iid cid
    rw [handleQrCodeUpdate_conversations]
    exact h iid cid
  · exact h

/-- Two guard-passing items for the same jid, delivered to a store where the
instance has no conversation at all, leave exactly one conversation row for
that instance. -/
theorem two_messages_one_conversation (db : DB) (instanceName : String)
    (d1 d2 : MessageUpsertData) (k1 k2 : MessageKey) (jid : String) (inst : Instance)
    (h1k : d1.key = some k1) (h1j : k1.remoteJid = some jid)
    (h2k : d2.key = some k2) (h2j : k2.remoteJid = some jid)
    (hne : jid ≠ "") (hnb : jid ≠ "status@broadcast")
    (hinst : findInstanceByName db instanceName = some inst)
    (hnoconv : ∀ c ∈ db.conversations, c.instanceId ≠ inst.id) :
    (processUpsertItems db instanceName [d1, d2]).db.conversations.countP
      (fun c => c.instanceId == inst.id) = 1 := by
  obtain ⟨ct1, conv1, dbc1, heq1, hinstE1, hmsgE1, hnowE1, hioE1, hcti1, hcvi1, hcvc1,
    hfct1, hpush1, hfcv1, hlink1, hdisj1⟩ :=
    processUpsertItem_spec db instanceName d1 k1 jid inst h1k h1j hne hnb hinst
  have hpairnone : findConversationByPair db inst.id ct1.id = none := by
    rw [findConversationByPair]
    exact List.find?_eq_none.mpr (fun c hc => by simp [hnoconv c hc])
  have happ1 : dbc1.conversations = db.conversations ++ [conv1] := by
    rcases hdisj1 with ⟨hfound, _⟩ | ⟨_, _, _, happ⟩
    · rw [hpairnone] at hfound
      cases hfound
    · exact happ
  have hcount_db : db.conversations.countP (fun c => c.instanceId == inst.id) = 0 :=
    List.countP_eq_zero.mpr (fun c hc => by simp [hnoconv c hc])
  have hcount_dbc1 : dbc1.conversations.countP (fun c => c.instanceId == inst.id) = 1 := by
    rw [happ1, List.countP_append, hcount_db, List.countP_cons, List.countP_nil]
    simp [hcvi1]
  set r1 := processUpsertItem db instanceName d1 with hr1
  have hr1eq : r1 = upsertMessageStage dbc1 d1 k1 inst ct1 conv1 := heq1
  have hcount_r1 : r1.db.conversations.countP (fun c => c.instanceId == inst.id) = 1 := by
    rw [hr1eq]
    rcases upsertMessageStage_conv_shape dbc1 d1 k1 inst ct1 conv1 with hsame |
      ⟨g, hg1, _, _, hmap⟩
    · rw [hsame]
      exact hcount_dbc1
    · rw [hmap, countP_map_pred_inv _ g (fun a => by simp [hg1])]
      exact hcount_dbc1
  have hinst_r1 : findInstanceByName r1.db instanceName = some inst := by
    rw [findInstanceByName_congr db r1.db
      (by rw [hr1eq, upsertMessageStage_instances]; exact hinstE1)]
    exact hinst
  have hfct_r1 : findContactByJid r1.db inst.id jid = some ct1 := by
    rw [findContactByJid_congr dbc1 r1.db
      (by rw [hr1eq, upsertMessageStage_contacts])]
    exact hfct1
  have hfcv_r1 : ∃ convX, findConversationByPair r1.db inst.id ct1.id = some convX := by
    rw [hr1eq]
    rcases upsertMessageStage_conv_shape dbc1 d1 k1 inst ct1 conv1 with hsame |
      ⟨g, hg1, hg2, _, hmap⟩
    · refine ⟨conv1, ?_⟩
      rw [findConversationByPair_congr dbc1 _ hsame]
      exact hfcv1
    · refine ⟨g conv1, ?_⟩
      rw [findConversationByPair]
      rw [show (upsertMessageStage dbc1 d1 k1 inst ct1 conv1).db.conversations
          = dbc1.conversations.map g from hmap]
      rw [find?_map_pred_inv _ g (fun a => by simp [hg1, hg2])]
      rw [show List.find? (fun c => c.instanceId == inst.id && c.contactId == ct1.id)
          dbc1.conversations = some conv1 from hfcv1]
      rfl
  rcases herr1 : r1.error with _ | e
  · -- first item finished; run the second item
    have hbatch : (processUpsertItems db instanceName [d1, d2]).db =
        (processUpsertItem r1.db instanceName d2).db := by
      simp only [processUpsertItems, ← hr1, herr1]
      rcases herr2 : (processUpsertItem r1.db instanceName d2).error with _ | e2 <;>
        simp [herr2]
    rw [hbatch]
    obtain ⟨ct2, conv2, dbc2, heq2, hinstE2, hmsgE2, hnowE2, hioE2, hcti2, hcvi2, hcvc2,
      hfct2, hpush2, hfcv2, hlink2, hdisj2⟩ :=
      processUpsertItem_spec r1.db instanceName d2 k2 jid inst h2k h2j hne hnb hinst_r1
    have hct2id : ct2.id = ct1.id := by
      rcases hlink2 with hnone | ⟨c0, hc0, hideq⟩
      · rw [hfct_r1] at hnone
        cases hnone
      · rw [hfct_r1] at hc0
        cases hc0
        exact hideq
    have hsame2 : dbc2.conversations = r1.db.conversations := by
      rcases hdisj2 with ⟨_, hconvsE⟩ | ⟨hnoneC, _, _, _⟩
      · exact hconvsE
      · obtain ⟨convX, hX⟩ := hfcv_r1
        rw [hct2id, hX] at hnoneC
        cases hnoneC
    have hcount_dbc2 : dbc2.conversations.countP (fun c => c.instanceId == inst.id) = 1 := by
      rw [hsame2]
      exact hcount_r1
    rw [heq2]
    rcases upsertMessageStage_conv_shape dbc2 d2 k2 inst ct2 conv2 with hsame |
      ⟨g, hg1, _, _, hmap⟩
    · rw [hsame]
      exact hcount_dbc2
    · rw [hmap, countP_map_pred_inv _ g (fun a => by simp [hg1])]
      exact hcount_dbc2
  · -- the first item threw: the batch stops there
    have hbatch : (processUpsertItems db instanceName [d1, d2]).db = r1.db := by
      simp [processUpsertItems, ← hr1, herr1]
    rw [hbatch]
    exact hcount_r1

/-- C7: at most one conversation row ever exists per (instanceId, contactId)
pair.  First block: two guard-passing inbound items for the same jid arriving
before the instance has any conversation leave exactly one conversation row
for it.  Second block: the conversation stage looks the pair up first and only
creates when absent, with status OPEN and zero unread counter.  Third and
fourth blocks: every webhook event and every mark-as-read call preserve the
at-most-one-per-pair bound. -/
theorem claim_C7_conversation_singleton :
    (∀ (db : DB) (instanceName : String) (d1 d2 : MessageUpsertData)
       (k1 k2 : MessageKey) (jid : String) (inst : Instance),
       d1.key = some k1 → k1.remoteJid = some jid →
       d2.key = some k2 → k2.remoteJid = some jid →
       jid ≠ "" → jid ≠ "status@broadcast" →
       findInstanceByName db instanceName = some inst →
       (∀ c ∈ db.conversations, c.instanceId ≠ inst.id) →
       (processUpsertItems db instanceName [d1, d2]).db.conversations.countP
         (fun c => c.instanceId == inst.id) = 1) ∧
    (∀ (db : DB) (d : MessageUpsertData) (key : MessageKey) (inst : Instance)
       (ct : Contact),
       findConversationByPair db inst.id ct.id = none →
       ∃ conv db2,
         upsertConversationStage db d key inst ct = upsertMessageStage db2 d key inst ct conv ∧
         conv.status = .OPEN ∧ conv.unreadCount = 0 ∧
         conv.instanceId = inst.id ∧ conv.contactId = ct.id ∧
         db2.conversations = db.conversations ++ [conv]) ∧
    (∀ (db : DB) (p : WebhookPayload), ConversationSingleton db →
       ConversationSingleton (handleWebhook db p).db) ∧
    (∀ (db : DB) (cid : Nat) (gf : Bool), ConversationSingleton db →
       ConversationSingleton (markAsRead db cid gf).db) := by
  refine ⟨two_messages_one_conversation, ?_, ?_, ?_⟩
  · intro db d key inst ct hnone
    obtain ⟨conv, db2, heq, _, _, _, _, _, hcvi, hcvc, _, hdisj⟩ :=
      upsertConversationStage_spec db d key inst ct
    rcases hdisj with ⟨hfound, _⟩ | ⟨_, hopen, hzero, happ⟩
    · rw [hnone] at hfound
      cases hfound
    · exact ⟨conv, db2, heq, hopen, hzero, hcvi, hcvc, happ⟩
  · intro db p h
    have hdb : (handleWebhook db p).db = (webhookDispatch db p).db := by
      rcases herr : (webhookDispatch db p).error with _ | e <;>
        simp [handleWebhook, herr]
    rw [hdb]
    exact webhookDispatch_convSingleton db p h
  · intro db cid gf h
    rcases hc : findConversationById db cid with _ | conv
    · simpa [markAsRead, hc] using h
    · intro iid cid'
      simp only [markAsRead, hc]
      rw [updateConversationRow_conversations]
      rw [countP_map_pred_inv _ _ (fun a => by by_cases hh : a.id = cid <;> simp [hh])]
      exact h iid cid'

/-- Witness for C7: the same guard-passing item delivered twice to the empty
store leaves exactly one conversation for the instance, and the bound is kept
by a concrete webhook call. -/
theorem claim_C7_conversation_singleton_witness :
    (processUpsertItems wDb0 "shop1" [wItem, wItem]).db.conversations.countP
      (fun c => c.instanceId == 1) = 1 ∧
    ConversationSingleton
      (handleWebhook wDb0 ⟨"messages.upsert", "shop1", .upsertOne wItem⟩).db :=
  ⟨claim_C7_conversation_singleton.1 wDb0 "shop1" wItem wItem wKey wKey wJid wInstance
     rfl rfl rfl rfl (by decide) (by decide) rfl (by intro c hc; simp [wDb0] at hc),
   claim_C7_conversation_singleton.2.2.1 wDb0 ⟨"messages.upsert", "shop1", .upsertOne wItem⟩
     (by intro iid cid; simp [wDb0])⟩

/-- One fully processed fresh inbound item: no error, instances untouched, the
contact still findable with a stable id, the conversation's unread counter
incremented by exactly one, and exactly one message appended carrying the
item's external id. -/
theorem processUpsertItem_inbound_step (db : DB) (instanceName : String)
    (d : MessageUpsertData) (key : MessageKey) (jid kid : String) (inst : Instance)
    (ct : Contact) (conv : Conversation)
    (hkey : d.key = some key) (hjid : key.remoteJid = some jid)
    (hne : jid ≠ "") (hnb : jid ≠ "status@broadcast")
    (hinst : findInstanceByName db instanceName = some inst)
    (hct : findContactByJid db inst.id jid = some ct)
    (hconv : findConversationByPair db inst.id ct.id = some conv)
    (hid : key.id = some kid)
    (hfresh : findMessageByExternalId db inst.id kid = none)
    (hfm : key.fromMe = false) :
    (processUpsertItem db instanceName d).error = none ∧
    (processUpsertItem db instanceName d).db.instances = db.instances ∧
    (∃ ct', findContactByJid (processUpsertItem db instanceName d).db inst.id jid
      = some ct' ∧ ct'.id = ct.id) ∧
    (∃ conv', findConversationByPair (processUpsertItem db instanceName d).db inst.id ct.id
      = some conv' ∧ conv'.unreadCount = conv.unreadCount + 1) ∧
    (∃ bm, (processUpsertItem db instanceName d).db.messages = db.messages ++ [bm] ∧
      bm.instanceId = inst.id ∧ bm.messageId = kid) := by
  obtain ⟨ctC, convC, dbc, heq, hinstE, hmsgE, hnowE, hioE, hcti, hcvi, hcvc, hfct, hpush,
    hfcv, hlink, hdisj⟩ :=
    processUpsertItem_spec db instanceName d key jid inst hkey hjid hne hnb hinst
  have hctid : ctC.id = ct.id := by
    rcases hlink with h | ⟨c0, hc0, hid'⟩
    · rw [h] at hct
      exact absurd hct (by simp)
    · rw [hct] at hc0
      cases hc0
      exact hid'
  have hconvC : convC = conv ∧ dbc.conversations = db.conversations := by
    rcases hdisj with ⟨hfound, hconvsE⟩ | ⟨hnoneC, _, _, _⟩
    · rw [hctid, hconv] at hfound
      cases hfound
      exact ⟨rfl, hconvsE⟩
    · rw [hctid, hconv] at hnoneC
      cases hnoneC
  obtain ⟨hconvCeq, hconvsE⟩ := hconvC
  subst hconvCeq
  have hfresh' : findMessageByExternalId dbc inst.id kid = none := by
    rw [findMessageByExternalId_congr db dbc hmsgE]
    exact hfresh
  rw [heq, upsertMessageStage_of_fresh dbc d key inst ctC convC kid hid hfresh']
  refine ⟨rfl, ?_, ?_, ?_, ?_⟩
  · show (updateConversationRow _ _ _).instances = db.instances
    rw [updateConversationRow_instances]
    exact hinstE
  · exact ⟨ctC, hfct, hctid⟩
  · refine ⟨conversationAggregateUpdate key convC.status (getMessageContent d)
      (upsertTimestamp dbc d) convC, ?_, ?_⟩
    · rw [findConversationByPair_updateRow _ _ _ _ _
        (conversationAggregateUpdate_instanceId _ _ _ _)
        (conversationAggregateUpdate_contactId _ _ _ _)]
      have hbase : findConversationByPair
          { dbc with messages := dbc.messages ++ [builtMessage dbc d key kid inst ctC convC],
                     nextId := dbc.nextId + 1 } inst.id ct.id = some convC := by
        show findConversationByPair dbc inst.id ct.id = some convC
        rw [← hctid]
        exact hfcv
      rw [hbase, Option.map_some', if_pos rfl]
    · exact conversationAggregateUpdate_unread_inbound _ _ _ _ _ hfm
  · refine ⟨builtMessage dbc d key kid inst ctC convC, ?_,
      builtMessage_instanceId dbc d key kid inst ctC convC,
      builtMessage_messageId dbc d key kid inst ctC convC⟩
    show (updateConversationRow _ _ _).messages = _
    rw [updateConversationRow_messages]
    show dbc.messages ++ [builtMessage dbc d key kid inst ctC convC] = _
    rw [hmsgE]
/-- A batch of distinct fresh inbound items for one contact raises the
conversation's unread counter by exactly the batch length. -/
theorem inbound_batch_unread (instanceName jid : String) (inst : Instance)
    (hne : jid ≠ "") (hnb : jid ≠ "status@broadcast") :
    ∀ (ds : List MessageUpsertData) (kids : List String) (db : DB) (ctId u : Nat),
    findInstanceByName db instanceName = some inst →
    (∃ ct, findContactByJid db inst.id jid = some ct ∧ ct.id = ctId) →
    (∃ conv, findConversationByPair db inst.id ctId = some conv ∧ conv.unreadCount = u) →
    List.Forall₂ (fun (kid : String) (d : MessageUpsertData) =>
      ∃ key, d.key = some key ∧ key.remoteJid = some jid ∧ key.fromMe = false ∧
        key.id = some kid) kids ds →
    kids.Nodup →
    (∀ kid ∈ kids, findMessageByExternalId db inst.id kid = none) →
    (processUpsertItems db instanceName ds).error = none ∧
    ∃ conv', findConversationByPair (processUpsertItems db instanceName ds).db inst.id ctId
      = some conv' ∧ conv'.unreadCount = u + ds.length := by
  intro ds
  induction ds with
  | nil =>
    intro kids db ctId u hinst hct hconv hforall hnodup hfresh
    obtain ⟨conv, hc, hu⟩ := hconv
    exact ⟨rfl, conv, hc, by simpa using hu⟩
  | cons d rest ih =>
    intro kids db ctId u hinst hct hconv hforall hnodup hfresh
    rcases hforall with _ | ⟨⟨key, hkey, hjid, hfm, hid⟩, htail⟩
    rename_i kid ks
    have hkidnot : kid ∉ ks := (List.nodup_cons.mp hnodup).1
    have hnodup' : ks.Nodup := (List.nodup_cons.mp hnodup).2
    obtain ⟨ct, hct', hctid⟩ := hct
    obtain ⟨conv, hconv', hu⟩ := hconv
    have hconvStep : findConversationByPair db inst.id ct.id = some conv := by
      rw [hctid]
      exact hconv'
    obtain ⟨herr, hinstP, ⟨ct', hctF, hctid'⟩, ⟨conv', hcvF, hcvU⟩, bm, hmsgs, hbmi, hbmk⟩ :=
      processUpsertItem_inbound_step db instanceName d key jid kid inst ct conv
        hkey hjid hne hnb hinst hct'
        hconvStep hid (hfresh kid (List.mem_cons_self kid ks)) hfm
    set db1 := (processUpsertItem db instanceName d).db with hdb1
    have hinst1 : findInstanceByName db1 instanceName = some inst := by
      rw [findInstanceByName_congr db db1 hinstP]
      exact hinst
    have hct1 : ∃ c, findContactByJid db1 inst.id jid = some c ∧ c.id = ctId :=
      ⟨ct', hctF, hctid'.trans hctid⟩
    have hconv1 : ∃ c, findConversationByPair db1 inst.id ctId = some c ∧
        c.unreadCount = u + 1 := by
      refine ⟨conv', ?_, by rw [hcvU, hu]⟩
      rw [← hctid]
      exact hcvF
    have hfresh1 : ∀ kid' ∈ ks, findMessageByExternalId db1 inst.id kid' = none := by
      intro kid' hmem
      rw [findMessageByExternalId]
      rw [show db1.messages = db.messages ++ [bm] from hmsgs, List.find?_append]
      have h0 : List.find? (fun m => m.instanceId == inst.id && m.messageId == kid')
          db.messages = none := hfresh kid' (List.mem_cons_of_mem kid hmem)
      rw [h0]
      have hbmpred : (fun m : Message => m.instanceId == inst.id && m.messageId == kid') bm
          = false := by
        have : kid ≠ kid' := fun h => hkidnot (h ▸ hmem)
        simp [hbmk, this]
      simp [List.find?, hbmpred]
    obtain ⟨herr2, conv'', hfind2, hu2⟩ :=
      ih ks db1 ctId (u + 1) hinst1 hct1 hconv1 htail hnodup' hfresh1
    constructor
    · simp only [processUpsertItems, ← hdb1, herr]
      exact herr2
    · refine ⟨conv'', ?_, ?_⟩
      · have hdbeq : (processUpsertItems db instanceName (d :: rest)).db =
            (processUpsertItems db1 instanceName rest).db := by
          simp only [processUpsertItems, ← hdb1, herr]
        rw [hdbeq]
        exact hfind2
      · rw [hu2, List.length_cons]
        omega
/-- C9: N consecutive fresh inbound (non-agent) messages for one contact raise
the conversation's unread counter by exactly N, and a mark-as-read call on a
conversation answers 200, resets the unread counter to 0 and turns every
inbound (fromMe = false) message of that conversation to READ. -/
theorem claim_C9_unread_accounting :
    (∀ (instanceName jid : String) (inst : Instance),
      jid ≠ "" → jid ≠ "status@broadcast" →
      ∀ (ds : List MessageUpsertData) (kids : List String) (db : DB) (ctId u : Nat),
      findInstanceByName db instanceName = some inst →
      (∃ ct, findContactByJid db inst.id jid = some ct ∧ ct.id = ctId) →
      (∃ conv, findConversationByPair db inst.id ctId = some conv ∧ conv.unreadCount = u) →
      List.Forall₂ (fun (kid : String) (d : MessageUpsertData) =>
        ∃ key, d.key = some key ∧ key.remoteJid = some jid ∧ key.fromMe = false ∧
          key.id = some kid) kids ds →
      kids.Nodup →
      (∀ kid ∈ kids, findMessageByExternalId db inst.id kid = none) →
      (processUpsertItems db instanceName ds).error = none ∧
      ∃ conv', findConversationByPair (processUpsertItems db instanceName ds).db inst.id ctId
        = some conv' ∧ conv'.unreadCount = u + ds.length) ∧
    (∀ (db : DB) (cid : Nat) (gf : Bool) (conv : Conversation),
      findConversationById db cid = some conv →
      (markAsRead db cid gf).status = 200 ∧
      (∃ conv', findConversationById (markAsRead db cid gf).db cid = some conv' ∧
        conv'.unreadCount = 0) ∧
      (∀ m ∈ (markAsRead db cid gf).db.messages,
        m.conversationId = cid → m.isFromMe = false → m.status = .READ)) := by
  constructor
  · exact fun instanceName jid inst hne hnb =>
      inbound_batch_unread instanceName jid inst hne hnb
  · intro db cid gf conv hconv
    have hidconv : conv.id = cid := by
      have h := List.find?_some (p := fun c : Conversation => c.id == cid) hconv
      exact eq_of_beq h
    refine ⟨by simp [markAsRead, hconv], ?_, ?_⟩
    · refine ⟨{ conv with unreadCount := 0 }, ?_, rfl⟩
      have hc : List.find? (fun c : Conversation => c.id == cid) db.conversations
          = some conv := hconv
      simp only [markAsRead, hconv]
      simp only [findConversationById, updateConversationRow_conversations]
      rw [find?_map_pred_inv (fun c : Conversation => c.id == cid)
        (fun c : Conversation => if c.id = cid then { c with unreadCount := 0 } else c)
        (fun a => by by_cases h : a.id = cid <;> simp [h]) db.conversations, hc,
        Option.map_some', if_pos hidconv]
    · intro m hm hcid hfm
      simp only [markAsRead, hconv] at hm
      have hmm : m ∈ db.messages.map (fun x =>
          if x.conversationId == cid && !x.isFromMe && x.status ≠ MessageStatus.READ
          then { x with status := MessageStatus.READ } else x) := hm
      rcases List.mem_map.mp hmm with ⟨pre, hpre, heq⟩
      by_cases hsel : (pre.conversationId == cid && !pre.isFromMe &&
          decide (pre.status ≠ MessageStatus.READ)) = true
      · rw [if_pos hsel] at heq
        rw [← heq]
      · rw [if_neg hsel] at heq
        subst heq
        simp only [hcid, hfm, beq_self_eq_true, Bool.not_false, Bool.true_and,
          decide_eq_true_eq, Bool.and_eq_true, not_and, not_not] at hsel
        simpa using hsel

/-- Witness for C9: two fresh inbound items raise the RESOLVED conversation's
counter from 3 to 5, and a mark-as-read on the conversation of the READ store
resets the counter. -/
theorem claim_C9_unread_accounting_witness :
    ((processUpsertItems wDbConv "shop1" [wItem, wItem2]).error = none ∧
      ∃ conv', findConversationByPair
        (processUpsertItems wDbConv "shop1" [wItem, wItem2]).db 1 2 = some conv' ∧
        conv'.unreadCount = 3 + 2) ∧
    ∃ conv', findConversationById (markAsRead wDbRead 5 false).db 5 = some conv' ∧
      conv'.unreadCount = 0 := by
  constructor
  · have h := claim_C9_unread_accounting.1 "shop1" wJid wInstance (by decide) (by decide)
      [wItem, wItem2] ["MSG1", "MSG2"] wDbConv 2 3 rfl
      ⟨wContact, rfl, rfl⟩ ⟨wConversationResolved, rfl, rfl⟩
      (List.Forall₂.cons ⟨wKey, rfl, rfl, rfl, rfl⟩
        (List.Forall₂.cons ⟨⟨some wJid, false, some "MSG2"⟩, rfl, rfl, rfl, rfl⟩
          List.Forall₂.nil))
      (by decide) (by intro kid hk; fin_cases hk <;> rfl)
    exact h
  · exact (claim_C9_unread_accounting.2 wDbRead 5 false wConversationResolved rfl).2.1

/-- After a mark-as-read on an existing conversation, every inbound message of
that conversation is READ. -/
theorem markAsRead_marks_all_inbound (db : DB) (cid : Nat) (gf : Bool)
    (conv : Conversation) (hconv : findConversationById db cid = some conv) :
    ∀ m ∈ (markAsRead db cid gf).db.messages,
      m.conversationId = cid → m.isFromMe = false → m.status = .READ := by
  intro m hm hcid hfm
  simp only [markAsRead, hconv] at hm
  have hmm : m ∈ db.messages.map (fun x =>
      if x.conversationId == cid && !x.isFromMe && x.status ≠ MessageStatus.READ
      then { x with status := MessageStatus.READ } else x) := hm
  rcases List.mem_map.mp hmm with ⟨pre, hpre, heq⟩
  by_cases hsel : (pre.conversationId == cid && !pre.isFromMe &&
      decide (pre.status ≠ MessageStatus.READ)) = true
  · rw [if_pos hsel] at heq
    rw [← heq]
  · rw [if_neg hsel] at heq
    subst heq
    simp only [hcid, hfm, beq_self_eq_true, Bool.not_false, Bool.true_and,
      decide_eq_true_eq, Bool.and_eq_true, not_and, not_not] at hsel
    simpa using hsel

/-- The descending comparator used by `markAsRead`'s `orderBy` is transitive. -/
theorem tsDescTrans : ∀ a b c : Message,
    (decide (b.timestamp ≤ a.timestamp)) = true →
    (decide (c.timestamp ≤ b.timestamp)) = true →
    (decide (c.timestamp ≤ a.timestamp)) = true := by
  intro a b c h1 h2
  simp only [decide_eq_true_eq] at h1 h2 ⊢
  omega

/-- The descending comparator used by `markAsRead`'s `orderBy` is total. -/
theorem tsDescTotal : ∀ a b : Message,
    ((decide (b.timestamp ≤ a.timestamp)) || (decide (a.timestamp ≤ b.timestamp))) = true := by
  intro a b
  rcases Nat.le_total b.timestamp a.timestamp with h | h <;> simp [h]

/-- C10: on a conversation holding more than ten unread inbound messages, the
read-receipt call forwarded to the gateway carries exactly the ten most recent
of them (every forwarded message is at least as recent as every unread inbound
message left out of the slice), while the local store still marks every unread
inbound message of the conversation READ and resets the unread counter; and a
failing gateway call changes nothing, because its error is swallowed by the
inner try/catch. -/
theorem claim_C10_read_receipt_slice (db : DB) (cid : Nat) (gf : Bool)
    (conv : Conversation) (inst : Instance) (ct : Contact)
    (hconv : findConversationById db cid = some conv)
    (hinst : findInstanceById db conv.instanceId = some inst)
    (hconn : inst.status = .CONNECTED)
    (hcontact : findContactById db conv.contactId = some ct)
    (h10 : 10 < (unreadInboundOf db cid).length) :
    (markAsRead db cid gf).forwarded =
      some ((recentUnreadInbound db cid).map Message.messageId) ∧
    (recentUnreadInbound db cid).length = 10 ∧
    (∀ m1 ∈ recentUnreadInbound db cid, ∀ m2 ∈ (sortedUnreadInbound db cid).drop 10,
      m2.timestamp ≤ m1.timestamp) ∧
    markAsRead db cid true = markAsRead db cid false ∧
    (∀ m ∈ (markAsRead db cid gf).db.messages,
      m.conversationId = cid → m.isFromMe = false → m.status = .READ) ∧
    (∃ conv', findConversationById (markAsRead db cid gf).db cid = some conv' ∧
      conv'.unreadCount = 0) := by
  have hsortlen : (sortedUnreadInbound db cid).length = (unreadInboundOf db cid).length :=
    (List.mergeSort_perm (unreadInboundOf db cid) _).length_eq
  have hlen : (recentUnreadInbound db cid).length = 10 := by
    rw [recentUnreadInbound, List.length_take, hsortlen]
    omega
  refine ⟨?_, hlen, ?_, rfl, markAsRead_marks_all_inbound db cid gf conv hconv, ?_⟩
  · simp only [markAsRead, hconv, hinst, hconn, hcontact]
    have hpos : (recentUnreadInbound db cid).length > 0 := by
      rw [hlen]
      omega
    simp [hpos]
  · intro m1 h1 m2 h2
    have hsorted := List.sorted_mergeSort tsDescTrans tsDescTotal (unreadInboundOf db cid)
    have hpair : List.Pairwise
        (fun a b : Message => (decide (b.timestamp ≤ a.timestamp)) = true)
        (sortedUnreadInbound db cid) := hsorted
    rw [show sortedUnreadInbound db cid =
        (sortedUnreadInbound db cid).take 10 ++ (sortedUnreadInbound db cid).drop 10
      from (List.take_append_drop 10 _).symm] at hpair
    have hcross := (List.pairwise_append.mp hpair).2.2 m1 h1 m2 h2
    simpa using hcross
  · have hidconv : conv.id = cid := by
      have h := List.find?_some (p := fun c : Conversation => c.id == cid) hconv
      exact eq_of_beq h
    refine ⟨{ conv with unreadCount := 0 }, ?_, rfl⟩
    have hc : List.find? (fun c : Conversation => c.id == cid) db.conversations
        = some conv := hconv
    simp only [markAsRead, hconv]
    simp only [findConversationById, updateConversationRow_conversations]
    rw [find?_map_pred_inv (fun c : Conversation => c.id == cid)
      (fun c : Conversation => if c.id = cid then { c with unreadCount := 0 } else c)
      (fun a => by by_cases h : a.id = cid <;> simp [h]) db.conversations, hc,
      Option.map_some', if_pos hidconv]

/-- Witness for C10 at the twelve-message store: the forwarded slice is the
ten most recent unread inbound ids and the gateway outcome is irrelevant. -/
theorem claim_C10_read_receipt_slice_witness :
    (markAsRead wDbMany 5 true).forwarded =
      some ((recentUnreadInbound wDbMany 5).map Message.messageId) ∧
    (recentUnreadInbound wDbMany 5).length = 10 ∧
    markAsRead wDbMany 5 true = markAsRead wDbMany 5 false := by
  obtain ⟨hfwd, hlen, _, hgw, _, _⟩ :=
    claim_C10_read_receipt_slice wDbMany 5 true ⟨5, 1, 2, .OPEN, 12, none, none⟩
      wInstance wContact rfl rfl rfl rfl (by decide)
  exact ⟨hfwd, hlen, hgw⟩

end WhatsConversa
